import Mathlib

/-!
Verification of the live-configuration reconciliation engine of cc-switch
(`src-tauri/src/services/provider/live.rs` and `src-tauri/src/droid_config.rs`).

JSON documents are modelled by the inductive type `JValue`; JSON objects are
insertion-ordered association lists (mirroring `serde_json::Map` insertion
semantics: inserting an existing key replaces its value in place, a new key is
appended).  Machine integers (`i64` indices) are modelled as `Int`.  Fallible
Rust functions returning `Result<_, AppError>` become Lean functions into
`Except AppError _`.  The on-disk state of a JSON file is modelled as
`Option (Except Unit JValue)`: `none` is an absent file, `some (.error ())` a
present file whose bytes do not parse as JSON, `some (.ok v)` a present file
parsing to `v`.
-/

/-- JSON values, mirroring `serde_json::Value`.  Numbers are restricted to the
`i64` range actually used by the code (`as_i64`); objects are insertion-ordered
association lists. -/
inductive JValue where
  | null
  | bool (b : Bool)
  | num (n : Int)
  | str (s : String)
  | arr (xs : List JValue)
  | obj (fields : List (String × JValue))

mutual

def JValue.deq : (a b : JValue) → Decidable (a = b)
  | .null, .null => isTrue rfl
  | .bool a, .bool b =>
      match decEq a b with
      | isTrue h => isTrue (by rw [h])
      | isFalse h => isFalse (by intro hc; cases hc; exact h rfl)
  | .num a, .num b =>
      match decEq a b with
      | isTrue h => isTrue (by rw [h])
      | isFalse h => isFalse (by intro hc; cases hc; exact h rfl)
  | .str a, .str b =>
      match decEq a b with
      | isTrue h => isTrue (by rw [h])
      | isFalse h => isFalse (by intro hc; cases hc; exact h rfl)
  | .arr a, .arr b =>
      match JValue.deqList a b with
      | isTrue h => isTrue (by rw [h])
      | isFalse h => isFalse (by intro hc; cases hc; exact h rfl)
  | .obj a, .obj b =>
      match JValue.deqFields a b with
      | isTrue h => isTrue (by rw [h])
      | isFalse h => isFalse (by intro hc; cases hc; exact h rfl)
  | .null, .bool _ => isFalse (by intro h; cases h)
  | .null, .num _ => isFalse (by intro h; cases h)
  | .null, .str _ => isFalse (by intro h; cases h)
  | .null, .arr _ => isFalse (by intro h; cases h)
  | .null, .obj _ => isFalse (by intro h; cases h)
  | .bool _, .null => isFalse (by intro h; cases h)
  | .bool _, .num _ => isFalse (by intro h; cases h)
  | .bool _, .str _ => isFalse (by intro h; cases h)
  | .bool _, .arr _ => isFalse (by intro h; cases h)
  | .bool _, .obj _ => isFalse (by intro h; cases h)
  | .num _, .null => isFalse (by intro h; cases h)
  | .num _, .bool _ => isFalse (by intro h; cases h)
  | .num _, .str _ => isFalse (by intro h; cases h)
  | .num _, .arr _ => isFalse (by intro h; cases h)
  | .num _, .obj _ => isFalse (by intro h; cases h)
  | .str _, .null => isFalse (by intro h; cases h)
  | .str _, .bool _ => isFalse (by intro h; cases h)
  | .str _, .num _ => isFalse (by intro h; cases h)
  | .str _, .arr _ => isFalse (by intro h; cases h)
  | .str _, .obj _ => isFalse (by intro h; cases h)
  | .arr _, .null => isFalse (by intro h; cases h)
  | .arr _, .bool _ => isFalse (by intro h; cases h)
  | .arr _, .num _ => isFalse (by intro h; cases h)
  | .arr _, .str _ => isFalse (by intro h; cases h)
  | .arr _, .obj _ => isFalse (by intro h; cases h)
  | .obj _, .null => isFalse (by intro h; cases h)
  | .obj _, .bool _ => isFalse (by intro h; cases h)
  | .obj _, .num _ => isFalse (by intro h; cases h)
  | .obj _, .str _ => isFalse (by intro h; cases h)
  | .obj _, .arr _ => isFalse (by intro h; cases h)

def JValue.deqList : (a b : List JValue) → Decidable (a = b)
  | [], [] => isTrue rfl
  | [], _ :: _ => isFalse (by intro h; cases h)
  | _ :: _, [] => isFalse (by intro h; cases h)
  | x :: xs, y :: ys =>
      match JValue.deq x y, JValue.deqList xs ys with
      | isTrue h1, isTrue h2 => isTrue (by rw [h1, h2])
      | isFalse h1, _ => isFalse (by intro hc; cases hc; exact h1 rfl)
      | _, isFalse h2 => isFalse (by intro hc; cases hc; exact h2 rfl)

def JValue.deqFields : (a b : List (String × JValue)) → Decidable (a = b)
  | [], [] => isTrue rfl
  | [], _ :: _ => isFalse (by intro h; cases h)
  | _ :: _, [] => isFalse (by intro h; cases h)
  | (k1, v1) :: xs, (k2, v2) :: ys =>
      match decEq k1 k2, JValue.deq v1 v2, JValue.deqFields xs ys with
      | isTrue h0, isTrue h1, isTrue h2 => isTrue (by rw [h0, h1, h2])
      | isFalse h0, _, _ => isFalse (by intro hc; cases hc; exact h0 rfl)
      | _, isFalse h1, _ => isFalse (by intro hc; cases hc; exact h1 rfl)
      | _, _, isFalse h2 => isFalse (by intro hc; cases hc; exact h2 rfl)

end

instance : DecidableEq JValue := JValue.deq

/-- Lookup in the field list of an object (first occurrence), mirroring
`serde_json::Map::get`. -/
def getKey (fields : List (String × JValue)) (k : String) : Option JValue :=
  match fields with
  | [] => none
  | (k', v) :: rest => if k' = k then some v else getKey rest k

/-- Insert into the field list of an object, mirroring `serde_json::Map::insert`
(with insertion order preserved): replace the value in place when the key is
present, append otherwise. -/
def setKey (fields : List (String × JValue)) (k : String) (v : JValue) :
    List (String × JValue) :=
  match fields with
  | [] => [(k, v)]
  | (k', v') :: rest =>
      if k' = k then (k, v) :: rest else (k', v') :: setKey rest k v

/-- Remove a key from the field list of an object, mirroring
`serde_json::Map::remove`. -/
def removeKey (fields : List (String × JValue)) (k : String) :
    List (String × JValue) :=
  match fields with
  | [] => []
  | (k', v') :: rest =>
      if k' = k then rest else (k', v') :: removeKey rest k

/-- `Value::get` on maps (`v.get(key)`): `none` on non-objects. -/
def JValue.objGet (v : JValue) (k : String) : Option JValue :=
  match v with
  | .obj fields => getKey fields k
  | _ => none

/-- `Value::as_str`. -/
def JValue.asStr (v : JValue) : Option String :=
  match v with
  | .str s => some s
  | _ => none

/-- `Value::as_i64`. -/
def JValue.asInt (v : JValue) : Option Int :=
  match v with
  | .num n => some n
  | _ => none

/-- `Value::as_bool`. -/
def JValue.asBool (v : JValue) : Option Bool :=
  match v with
  | .bool b => some b
  | _ => none

/-- `Value::as_array`. -/
def JValue.asArr (v : JValue) : Option (List JValue) :=
  match v with
  | .arr xs => some xs
  | _ => none

/-- `Value::is_object`. -/
def JValue.isObj (v : JValue) : Bool :=
  match v with
  | .obj _ => true
  | _ => false

/-- Assignment `v[key] = x` on an object value (`serde_json` index assignment);
non-objects are returned unchanged (the code only applies it to objects). -/
def objSet (v : JValue) (k : String) (x : JValue) : JValue :=
  match v with
  | .obj fields => .obj (setKey fields k x)
  | other => other

/-- `AppError` from `src-tauri/src/error.rs`, restricted to the constructors
exercised here: configuration errors, localized (keyed) errors, JSON parse
errors and I/O errors (the latter two tagged by the offending path). -/
inductive AppError where
  | config (msg : String)
  | localized (key msgZh msgEn : String)
  | jsonErr (path : String)
  | ioErr (path : String)
deriving DecidableEq, Repr

/-- `Provider` from `src-tauri/src/provider.rs`: identity metadata plus the
opaque canonical settings document (`settings_config`). -/
structure Provider where
  id : String
  name : String
  settingsConfig : JValue
deriving DecidableEq

/-! ## Droid (collection-style) live document, from `live.rs` and `droid_config.rs` -/

/-- Display name of a collection entry:
`m.get("displayName").and_then(|v| v.as_str())`. -/
def entryName (m : JValue) : Option String :=
  (m.objGet "displayName").bind JValue.asStr

/-- Next free index for a new entry (from `write_droid_live`):
one greater than the maximum `index` present among entries carrying an
integer `index` field, `0` when no such index exists. -/
def nextDroidIndex (models : List JValue) : Int :=
  match (models.filterMap (fun m => (m.objGet "index").bind JValue.asInt)).max? with
  | some m => m + 1
  | none => 0

/-- Non-ASCII Unicode scalar-value ranges on which the Rust standard-library
predicate `char::is_alphanumeric` holds: the derived property `Alphabetic`
together with the general categories `Nd`, `Nl` and `No`, enumerated from the
Unicode 14.0.0 character database and stored as closed intervals of scalar
values. -/
def unicodeAlnumRanges : List (Nat × Nat) :=
  [
    (170, 170), (178, 179), (181, 181), (185, 186), (188, 190),
    (192, 214), (216, 246), (248, 705), (710, 721), (736, 740),
    (748, 748), (750, 750), (837, 837), (880, 884), (886, 887),
    (890, 893), (895, 895), (902, 902), (904, 906), (908, 908),
    (910, 929), (931, 1013), (1015, 1153), (1162, 1327), (1329, 1366),
    (1369, 1369), (1376, 1416), (1456, 1469), (1471, 1471), (1473, 1474),
    (1476, 1477), (1479, 1479), (1488, 1514), (1519, 1522), (1552, 1562),
    (1568, 1623), (1625, 1641), (1646, 1747), (1749, 1756), (1761, 1768),
    (1773, 1788), (1791, 1791), (1808, 1855), (1869, 1969), (1984, 2026),
    (2036, 2037), (2042, 2042), (2048, 2071), (2074, 2092), (2112, 2136),
    (2144, 2154), (2160, 2183), (2185, 2190), (2208, 2249), (2260, 2271),
    (2275, 2281), (2288, 2363), (2365, 2380), (2382, 2384), (2389, 2403),
    (2406, 2415), (2417, 2435), (2437, 2444), (2447, 2448), (2451, 2472),
    (2474, 2480), (2482, 2482), (2486, 2489), (2493, 2500), (2503, 2504),
    (2507, 2508), (2510, 2510), (2519, 2519), (2524, 2525), (2527, 2531),
    (2534, 2545), (2548, 2553), (2556, 2556), (2561, 2563), (2565, 2570),
    (2575, 2576), (2579, 2600), (2602, 2608), (2610, 2611), (2613, 2614),
    (2616, 2617), (2622, 2626), (2631, 2632), (2635, 2636), (2641, 2641),
    (2649, 2652), (2654, 2654), (2662, 2677), (2689, 2691), (2693, 2701),
    (2703, 2705), (2707, 2728), (2730, 2736), (2738, 2739), (2741, 2745),
    (2749, 2757), (2759, 2761), (2763, 2764), (2768, 2768), (2784, 2787),
    (2790, 2799), (2809, 2812), (2817, 2819), (2821, 2828), (2831, 2832),
    (2835, 2856), (2858, 2864), (2866, 2867), (2869, 2873), (2877, 2884),
    (2887, 2888), (2891, 2892), (2902, 2903), (2908, 2909), (2911, 2915),
    (2918, 2927), (2929, 2935), (2946, 2947), (2949, 2954), (2958, 2960),
    (2962, 2965), (2969, 2970), (2972, 2972), (2974, 2975), (2979, 2980),
    (2984, 2986), (2990, 3001), (3006, 3010), (3014, 3016), (3018, 3020),
    (3024, 3024), (3031, 3031), (3046, 3058), (3072, 3075), (3077, 3084),
    (3086, 3088), (3090, 3112), (3114, 3129), (3133, 3140), (3142, 3144),
    (3146, 3148), (3157, 3158), (3160, 3162), (3165, 3165), (3168, 3171),
    (3174, 3183), (3192, 3198), (3200, 3203), (3205, 3212), (3214, 3216),
    (3218, 3240), (3242, 3251), (3253, 3257), (3261, 3268), (3270, 3272),
    (3274, 3276), (3285, 3286), (3293, 3294), (3296, 3299), (3302, 3311),
    (3313, 3314), (3328, 3340), (3342, 3344), (3346, 3386), (3389, 3396),
    (3398, 3400), (3402, 3404), (3406, 3406), (3412, 3427), (3430, 3448),
    (3450, 3455), (3457, 3459), (3461, 3478), (3482, 3505), (3507, 3515),
    (3517, 3517), (3520, 3526), (3535, 3540), (3542, 3542), (3544, 3551),
    (3558, 3567), (3570, 3571), (3585, 3642), (3648, 3654), (3661, 3661),
    (3664, 3673), (3713, 3714), (3716, 3716), (3718, 3722), (3724, 3747),
    (3749, 3749), (3751, 3769), (3771, 3773), (3776, 3780), (3782, 3782),
    (3789, 3789), (3792, 3801), (3804, 3807), (3840, 3840), (3872, 3891),
    (3904, 3911), (3913, 3948), (3953, 3969), (3976, 3991), (3993, 4028),
    (4096, 4150), (4152, 4152), (4155, 4169), (4176, 4253), (4256, 4293),
    (4295, 4295), (4301, 4301), (4304, 4346), (4348, 4680), (4682, 4685),
    (4688, 4694), (4696, 4696), (4698, 4701), (4704, 4744), (4746, 4749),
    (4752, 4784), (4786, 4789), (4792, 4798), (4800, 4800), (4802, 4805),
    (4808, 4822), (4824, 4880), (4882, 4885), (4888, 4954), (4969, 4988),
    (4992, 5007), (5024, 5109), (5112, 5117), (5121, 5740), (5743, 5759),
    (5761, 5786), (5792, 5866), (5870, 5880), (5888, 5907), (5919, 5939),
    (5952, 5971), (5984, 5996), (5998, 6000), (6002, 6003), (6016, 6067),
    (6070, 6088), (6103, 6103), (6108, 6108), (6112, 6121), (6128, 6137),
    (6160, 6169), (6176, 6264), (6272, 6314), (6320, 6389), (6400, 6430),
    (6432, 6443), (6448, 6456), (6470, 6509), (6512, 6516), (6528, 6571),
    (6576, 6601), (6608, 6618), (6656, 6683), (6688, 6750), (6753, 6772),
    (6784, 6793), (6800, 6809), (6823, 6823), (6847, 6848), (6860, 6862),
    (6912, 6963), (6965, 6979), (6981, 6988), (6992, 7001), (7040, 7081),
    (7084, 7141), (7143, 7153), (7168, 7222), (7232, 7241), (7245, 7293),
    (7296, 7304), (7312, 7354), (7357, 7359), (7401, 7404), (7406, 7411),
    (7413, 7414), (7418, 7418), (7424, 7615), (7655, 7668), (7680, 7957),
    (7960, 7965), (7968, 8005), (8008, 8013), (8016, 8023), (8025, 8025),
    (8027, 8027), (8029, 8029), (8031, 8061), (8064, 8116), (8118, 8124),
    (8126, 8126), (8130, 8132), (8134, 8140), (8144, 8147), (8150, 8155),
    (8160, 8172), (8178, 8180), (8182, 8188), (8304, 8305), (8308, 8313),
    (8319, 8329), (8336, 8348), (8450, 8450), (8455, 8455), (8458, 8467),
    (8469, 8469), (8473, 8477), (8484, 8484), (8486, 8486), (8488, 8488),
    (8490, 8493), (8495, 8505), (8508, 8511), (8517, 8521), (8526, 8526),
    (8528, 8585), (9312, 9371), (9398, 9471), (10102, 10131), (11264, 11492),
    (11499, 11502), (11506, 11507), (11517, 11517), (11520, 11557), (11559, 11559),
    (11565, 11565), (11568, 11623), (11631, 11631), (11648, 11670), (11680, 11686),
    (11688, 11694), (11696, 11702), (11704, 11710), (11712, 11718), (11720, 11726),
    (11728, 11734), (11736, 11742), (11744, 11775), (11823, 11823), (12293, 12295),
    (12321, 12329), (12337, 12341), (12344, 12348), (12353, 12438), (12445, 12447),
    (12449, 12538), (12540, 12543), (12549, 12591), (12593, 12686), (12690, 12693),
    (12704, 12735), (12784, 12799), (12832, 12841), (12872, 12879), (12881, 12895),
    (12928, 12937), (12977, 12991), (13312, 19903), (19968, 42124), (42192, 42237),
    (42240, 42508), (42512, 42539), (42560, 42606), (42612, 42619), (42623, 42735),
    (42775, 42783), (42786, 42888), (42891, 42954), (42960, 42961), (42963, 42963),
    (42965, 42969), (42994, 43013), (43015, 43047), (43056, 43061), (43072, 43123),
    (43136, 43203), (43205, 43205), (43216, 43225), (43250, 43255), (43259, 43259),
    (43261, 43306), (43312, 43346), (43360, 43388), (43392, 43442), (43444, 43455),
    (43471, 43481), (43488, 43518), (43520, 43574), (43584, 43597), (43600, 43609),
    (43616, 43638), (43642, 43710), (43712, 43712), (43714, 43714), (43739, 43741),
    (43744, 43759), (43762, 43765), (43777, 43782), (43785, 43790), (43793, 43798),
    (43808, 43814), (43816, 43822), (43824, 43866), (43868, 43881), (43888, 44010),
    (44016, 44025), (44032, 55203), (55216, 55238), (55243, 55291), (63744, 64109),
    (64112, 64217), (64256, 64262), (64275, 64279), (64285, 64296), (64298, 64310),
    (64312, 64316), (64318, 64318), (64320, 64321), (64323, 64324), (64326, 64433),
    (64467, 64829), (64848, 64911), (64914, 64967), (65008, 65019), (65136, 65140),
    (65142, 65276), (65296, 65305), (65313, 65338), (65345, 65370), (65382, 65470),
    (65474, 65479), (65482, 65487), (65490, 65495), (65498, 65500), (65536, 65547),
    (65549, 65574), (65576, 65594), (65596, 65597), (65599, 65613), (65616, 65629),
    (65664, 65786), (65799, 65843), (65856, 65912), (65930, 65931), (66176, 66204),
    (66208, 66256), (66273, 66299), (66304, 66339), (66349, 66378), (66384, 66426),
    (66432, 66461), (66464, 66499), (66504, 66511), (66513, 66517), (66560, 66717),
    (66720, 66729), (66736, 66771), (66776, 66811), (66816, 66855), (66864, 66915),
    (66928, 66938), (66940, 66954), (66956, 66962), (66964, 66965), (66967, 66977),
    (66979, 66993), (66995, 67001), (67003, 67004), (67072, 67382), (67392, 67413),
    (67424, 67431), (67456, 67461), (67463, 67504), (67506, 67514), (67584, 67589),
    (67592, 67592), (67594, 67637), (67639, 67640), (67644, 67644), (67647, 67669),
    (67672, 67702), (67705, 67742), (67751, 67759), (67808, 67826), (67828, 67829),
    (67835, 67867), (67872, 67897), (67968, 68023), (68028, 68047), (68050, 68099),
    (68101, 68102), (68108, 68115), (68117, 68119), (68121, 68149), (68160, 68168),
    (68192, 68222), (68224, 68255), (68288, 68295), (68297, 68324), (68331, 68335),
    (68352, 68405), (68416, 68437), (68440, 68466), (68472, 68497), (68521, 68527),
    (68608, 68680), (68736, 68786), (68800, 68850), (68858, 68903), (68912, 68921),
    (69216, 69246), (69248, 69289), (69291, 69292), (69296, 69297), (69376, 69415),
    (69424, 69445), (69457, 69460), (69488, 69505), (69552, 69579), (69600, 69622),
    (69632, 69701), (69714, 69743), (69745, 69749), (69762, 69816), (69826, 69826),
    (69840, 69864), (69872, 69881), (69888, 69938), (69942, 69951), (69956, 69959),
    (69968, 70002), (70006, 70006), (70016, 70079), (70081, 70084), (70094, 70106),
    (70108, 70108), (70113, 70132), (70144, 70161), (70163, 70196), (70199, 70199),
    (70206, 70206), (70272, 70278), (70280, 70280), (70282, 70285), (70287, 70301),
    (70303, 70312), (70320, 70376), (70384, 70393), (70400, 70403), (70405, 70412),
    (70415, 70416), (70419, 70440), (70442, 70448), (70450, 70451), (70453, 70457),
    (70461, 70468), (70471, 70472), (70475, 70476), (70480, 70480), (70487, 70487),
    (70493, 70499), (70656, 70721), (70723, 70725), (70727, 70730), (70736, 70745),
    (70751, 70753), (70784, 70849), (70852, 70853), (70855, 70855), (70864, 70873),
    (71040, 71093), (71096, 71102), (71128, 71133), (71168, 71230), (71232, 71232),
    (71236, 71236), (71248, 71257), (71296, 71349), (71352, 71352), (71360, 71369),
    (71424, 71450), (71453, 71466), (71472, 71483), (71488, 71494), (71680, 71736),
    (71840, 71922), (71935, 71942), (71945, 71945), (71948, 71955), (71957, 71958),
    (71960, 71989), (71991, 71992), (71995, 71996), (71999, 72002), (72016, 72025),
    (72096, 72103), (72106, 72151), (72154, 72159), (72161, 72161), (72163, 72164),
    (72192, 72242), (72245, 72254), (72272, 72343), (72349, 72349), (72368, 72440),
    (72704, 72712), (72714, 72758), (72760, 72766), (72768, 72768), (72784, 72812),
    (72818, 72847), (72850, 72871), (72873, 72886), (72960, 72966), (72968, 72969),
    (72971, 73014), (73018, 73018), (73020, 73021), (73023, 73025), (73027, 73027),
    (73030, 73031), (73040, 73049), (73056, 73061), (73063, 73064), (73066, 73102),
    (73104, 73105), (73107, 73110), (73112, 73112), (73120, 73129), (73440, 73462),
    (73648, 73648), (73664, 73684), (73728, 74649), (74752, 74862), (74880, 75075),
    (77712, 77808), (77824, 78894), (82944, 83526), (92160, 92728), (92736, 92766),
    (92768, 92777), (92784, 92862), (92864, 92873), (92880, 92909), (92928, 92975),
    (92992, 92995), (93008, 93017), (93019, 93025), (93027, 93047), (93053, 93071),
    (93760, 93846), (93952, 94026), (94031, 94087), (94095, 94111), (94176, 94177),
    (94179, 94179), (94192, 94193), (94208, 100343), (100352, 101589), (101632, 101640),
    (110576, 110579), (110581, 110587), (110589, 110590), (110592, 110882), (110928, 110930),
    (110948, 110951), (110960, 111355), (113664, 113770), (113776, 113788), (113792, 113800),
    (113808, 113817), (113822, 113822), (119520, 119539), (119648, 119672), (119808, 119892),
    (119894, 119964), (119966, 119967), (119970, 119970), (119973, 119974), (119977, 119980),
    (119982, 119993), (119995, 119995), (119997, 120003), (120005, 120069), (120071, 120074),
    (120077, 120084), (120086, 120092), (120094, 120121), (120123, 120126), (120128, 120132),
    (120134, 120134), (120138, 120144), (120146, 120485), (120488, 120512), (120514, 120538),
    (120540, 120570), (120572, 120596), (120598, 120628), (120630, 120654), (120656, 120686),
    (120688, 120712), (120714, 120744), (120746, 120770), (120772, 120779), (120782, 120831),
    (122624, 122654), (122880, 122886), (122888, 122904), (122907, 122913), (122915, 122916),
    (122918, 122922), (123136, 123180), (123191, 123197), (123200, 123209), (123214, 123214),
    (123536, 123565), (123584, 123627), (123632, 123641), (124896, 124902), (124904, 124907),
    (124909, 124910), (124912, 124926), (124928, 125124), (125127, 125135), (125184, 125251),
    (125255, 125255), (125259, 125259), (125264, 125273), (126065, 126123), (126125, 126127),
    (126129, 126132), (126209, 126253), (126255, 126269), (126464, 126467), (126469, 126495),
    (126497, 126498), (126500, 126500), (126503, 126503), (126505, 126514), (126516, 126519),
    (126521, 126521), (126523, 126523), (126530, 126530), (126535, 126535), (126537, 126537),
    (126539, 126539), (126541, 126543), (126545, 126546), (126548, 126548), (126551, 126551),
    (126553, 126553), (126555, 126555), (126557, 126557), (126559, 126559), (126561, 126562),
    (126564, 126564), (126567, 126570), (126572, 126578), (126580, 126583), (126585, 126588),
    (126590, 126590), (126592, 126601), (126603, 126619), (126625, 126627), (126629, 126633),
    (126635, 126651), (127232, 127244), (127280, 127305), (127312, 127337), (127344, 127369),
    (130032, 130041), (131072, 173791), (173824, 177976), (177984, 178205), (178208, 183969),
    (183984, 191456), (194560, 195101), (196608, 201546)
  ]

/-- The Rust standard-library `char::is_alphanumeric`
(`is_alphabetic() || is_numeric()`): ASCII digits and letters on the fast
path, the Unicode `Alphabetic`/`Nd`/`Nl`/`No` table above beyond ASCII. -/
def rustIsAlphanumeric (c : Char) : Bool :=
  let n := c.toNat
  if n < 128 then
    (48 ≤ n && n ≤ 57) || (65 ≤ n && n ≤ 90) || (97 ≤ n && n ≤ 122)
  else
    unicodeAlnumRanges.any (fun r => r.1 ≤ n && n ≤ r.2)

/-- Identifier sanitization (from `build_droid_settings_model`): every
character that is not alphanumeric, `-` or `_` becomes `-`, where
alphanumeric is the Unicode notion of `char::is_alphanumeric`. -/
def cleanDroidName (name : String) : String :=
  String.mk (name.toList.map
    (fun c => if rustIsAlphanumeric c || c = '-' || c = '_' then c else '-'))

/-- Generated identifier `custom:<sanitized-name>-<index>`. -/
def droidModelId (name : String) (index : Int) : String :=
  "custom:" ++ cleanDroidName name ++ "-" ++ toString index

/-- Field list of the entry built by `build_droid_settings_model` from the
provider settings object `o`, the provider display name and the allocated
index.  Dual-casing lookups and the defaults mirror the source exactly. -/
def buildDroidFields (o : List (String × JValue)) (providerName : String)
    (index : Int) : List (String × JValue) :=
  [ ("model", JValue.str ((((getKey o "model").bind JValue.asStr)).getD
      "claude-sonnet-4-5-20250929")),
    ("id", JValue.str (droidModelId providerName index)),
    ("index", JValue.num index),
    ("baseUrl", JValue.str ((((getKey o "baseUrl").orElse
      (fun _ => getKey o "base_url")).bind JValue.asStr).getD "")),
    ("apiKey", JValue.str ((((getKey o "apiKey").orElse
      (fun _ => getKey o "api_key")).bind JValue.asStr).getD "")),
    ("displayName", JValue.str providerName),
    ("maxOutputTokens", JValue.num ((((getKey o "maxOutputTokens").orElse
      (fun _ => getKey o "max_tokens")).bind JValue.asInt).getD 131072)),
    ("noImageSupport", JValue.bool
      (((getKey o "noImageSupport").bind JValue.asBool).getD false)),
    ("provider", JValue.str
      (((getKey o "provider").bind JValue.asStr).getD "anthropic")) ]

/-- `build_droid_settings_model` (live.rs:541): requires the provider settings
to be a JSON object, then builds the camelCase entry. -/
def buildDroidSettingsModel (settings : JValue) (providerName : String)
    (index : Int) : Except AppError JValue :=
  match settings with
  | .obj o => .ok (.obj (buildDroidFields o providerName index))
  | _ => .error (.config "Droid 供应商配置必须是 JSON 对象")

/-- Replacement entry and final model id when an entry with the same display
name is found at position `pos` (from `write_droid_live`): the old entry
`index` (defaulting to the array position when absent) and `id` (when it is a
string) are copied into the freshly built entry `cm`. -/
def droidUpdateEntry (old cm : JValue) (pos : Nat) : JValue × String :=
  let oldIndex := ((old.objGet "index").bind JValue.asInt).getD (Int.ofNat pos)
  let upd1 := objSet cm "index" (.num oldIndex)
  match (old.objGet "id").bind JValue.asStr with
  | some oldId => (objSet upd1 "id" (.str oldId), oldId)
  | none => (upd1, ((upd1.objGet "id").bind JValue.asStr).getD "")

/-- Walk the entries array looking for the first entry whose display name
equals `dn` (Rust `iter().position(...)`), replacing it in place; `pos` is the
current absolute position.  Returns `none` when no entry matches. -/
def droidMergeAux (models : List JValue) (cm : JValue) (dn : String)
    (pos : Nat) : Option (List JValue × String) :=
  match models with
  | [] => none
  | m :: rest =>
      if entryName m = some dn then
        let r := droidUpdateEntry m cm pos
        some (r.1 :: rest, r.2)
      else
        (droidMergeAux rest cm dn (pos + 1)).map (fun r => (m :: r.1, r.2))

/-- Merge step of `write_droid_live`: update the first entry matching the
display name in place, or append the freshly built entry.  Also returns the
final model id used to repoint the selection pointer. -/
def droidMergeModels (models : List JValue) (cm : JValue) (dn : String) :
    List JValue × String :=
  match droidMergeAux models cm dn 0 with
  | some r => r
  | none => (models ++ [cm], ((cm.objGet "id").bind JValue.asStr).getD "")

/-- Selection-pointer update of `write_droid_live`: when the final model id is
non-empty, `sessionDefaultSettings` is created as `{}` if absent and, when it
is an object, its `model` field is set to the id (a non-object value is left
alone). -/
def droidSetSessionModel (fields : List (String × JValue))
    (finalModelId : String) : List (String × JValue) :=
  if finalModelId = "" then fields
  else
    match getKey fields "sessionDefaultSettings" with
    | none =>
        fields ++ [("sessionDefaultSettings",
          JValue.obj [("model", JValue.str finalModelId)])]
    | some (.obj sessionFields) =>
        setKey fields "sessionDefaultSettings"
          (.obj (setKey sessionFields "model" (.str finalModelId)))
    | some _ => fields

/-- Body of `write_droid_live` after the `customModels` array has been
located (or created): build the entry at the next free index, merge it, and
repoint the selection pointer. -/
def droidWriteCore (p : Provider) (fields : List (String × JValue))
    (models : List JValue) : Except AppError JValue :=
  match buildDroidSettingsModel p.settingsConfig p.name (nextDroidIndex models) with
  | .error e => .error e
  | .ok cm =>
      let dn := ((cm.objGet "displayName").bind JValue.asStr).getD ""
      let merged := droidMergeModels models cm dn
      .ok (.obj (droidSetSessionModel
        (setKey fields "customModels" (.arr merged.1)) merged.2))

/-- `write_droid_live` (live.rs:442) as a document transformer: takes the
parsed settings document and returns the document written back. The settings
must be a JSON object; `customModels` is created as `[]` when absent and must
be an array when present. -/
def droidWrite (p : Provider) (settings : JValue) : Except AppError JValue :=
  match settings with
  | .obj fields =>
      match getKey fields "customModels" with
      | some (.arr models) => droidWriteCore p fields models
      | none =>
          droidWriteCore p (fields ++ [("customModels", JValue.arr [])]) []
      | some _ => .error (.config "Droid settings.json 的 customModels 必须是数组")
  | _ => .error (.config "Droid settings.json 必须是 JSON 对象")

/-- `write_droid_live` at the file level: `read_droid_settings()` yields `{}`
for an absent file and an error for a malformed one, and the error is
swallowed by `unwrap_or_else(|_| json!({}))`, so both an absent and a
malformed file start the write from the empty object. -/
def droidWriteFile (p : Provider) (file : Option (Except Unit JValue)) :
    Except AppError JValue :=
  droidWrite p (match file with
    | some (.ok v) => v
    | _ => .obj [])

/-- `remove_droid_custom_model` (live.rs:612) on the parsed document: retain
the entries whose display name differs from the given provider name; report
whether anything was removed (the file is rewritten only in that case). -/
def removeDroidCustomModel (providerName : String) (settings : JValue) :
    JValue × Bool :=
  match settings with
  | .obj fields =>
      match getKey fields "customModels" with
      | some (.arr models) =>
          let kept := models.filter (fun m => ¬ (entryName m = some providerName))
          if kept.length < models.length then
            (.obj (setKey fields "customModels" (.arr kept)), true)
          else
            (.obj fields, false)
      | _ => (.obj fields, false)
  | other => (other, false)

/-- `remove_droid_custom_model` at the file level: `read_droid_settings()?`
propagates a parse error, an absent file reads as `{}`; the function returns
the newly persisted document, or `none` when nothing was written. -/
def removeDroidFile (providerName : String)
    (file : Option (Except Unit JValue)) : Except AppError (Option JValue) :=
  match file with
  | some (.error _) => .error (.jsonErr "settings.json")
  | some (.ok v) =>
      let r := removeDroidCustomModel providerName v
      .ok (if r.2 then some r.1 else none)
  | none =>
      let r := removeDroidCustomModel providerName (.obj [])
      .ok (if r.2 then some r.1 else none)

/-- First half of `cleanup_settings_for_new_config` (droid_config.rs:87):
drop `customModels` when it is present and is an empty array
(`as_array().map(is_empty).unwrap_or(false)`). -/
def cleanupModelsStep (fields : List (String × JValue)) :
    List (String × JValue) × Bool :=
  match getKey fields "customModels" with
  | some v =>
      if ((v.asArr.map List.isEmpty).getD false) then
        (removeKey fields "customModels", true)
      else (fields, false)
  | none => (fields, false)

/-- Second half of `cleanup_settings_for_new_config`: when
`sessionDefaultSettings` is an object containing `model`, remove that field. -/
def cleanupSessionStep (fields : List (String × JValue)) :
    List (String × JValue) × Bool :=
  match getKey fields "sessionDefaultSettings" with
  | some (.obj sf) =>
      if (getKey sf "model").isSome then
        (setKey fields "sessionDefaultSettings" (.obj (removeKey sf "model")),
          true)
      else (fields, false)
  | _ => (fields, false)

/-- `cleanup_settings_for_new_config` (droid_config.rs:87) on the parsed
document: the two steps above in sequence; reports whether anything
changed (the file is rewritten only in that case). -/
def cleanupSettings (settings : JValue) : JValue × Bool :=
  match settings with
  | .obj fields =>
      (.obj (cleanupSessionStep (cleanupModelsStep fields).1).1,
        (cleanupModelsStep fields).2 ||
          (cleanupSessionStep (cleanupModelsStep fields).1).2)
  | other => (other, false)

/-- `cleanup_settings_for_new_config` at the file level: an absent file is a
no-op, a malformed file is a propagated parse error, and the document is
rewritten only when modified (the persisted document is returned, `none` when
no write happened). -/
def cleanupFile (file : Option (Except Unit JValue)) :
    Except AppError (Option JValue) :=
  match file with
  | none => .ok none
  | some (.error _) => .error (.jsonErr "settings.json")
  | some (.ok v) =>
      let r := cleanupSettings v
      .ok (if r.2 then some r.1 else none)

/-- Entries array of a document (`customModels` when it is an array, `[]`
otherwise); on every document accepted by `droidWrite` this is exactly the
pre-existing entries array. -/
def droidModelsOf (v : JValue) : List JValue :=
  match v.objGet "customModels" with
  | some (.arr ms) => ms
  | _ => []

/-! ## App types, live file state, `read_live_settings`, and the sync loop -/

/-- `AppType` from `src-tauri/src/app_config.rs`: the four supported external
tools. -/
inductive AppType where
  | claude
  | codex
  | gemini
  | droid
deriving DecidableEq, Repr

/-- On-disk state of the live files consulted by `read_live_settings`.  Each
JSON file is `none` (absent), `some (.error ())` (present, malformed) or
`some (.ok v)`; the Codex main config is text, the Gemini env file parses to a
string→string map. -/
structure LiveFiles where
  claudeSettings : Option (Except Unit JValue)
  codexAuth : Option (Except Unit JValue)
  codexConfigText : Option (Except Unit String)
  geminiEnv : Option (Except Unit (List (String × String)))
  geminiSettings : Option (Except Unit JValue)
  droidConfig : Option (Except Unit JValue)

/-- Modelled from the spec: `read_and_validate_codex_config_text` lives in
`codex_config.rs`, which is not among the provided sources.  Per the spec
split auth/config variant, a missing config file degrades to the empty string
when tolerated and a malformed file surfaces a read error.  Only the
missing-auth path (which returns before this call) matters to the claims. -/
def readCodexConfigText (fs : LiveFiles) : Except AppError String :=
  match fs.codexConfigText with
  | none => .ok ""
  | some (.ok t) => .ok t
  | some (.error _) => .error (.ioErr "config.toml")

/-- Modelled from the spec: `read_gemini_env` and `env_to_json` live in
`gemini_config.rs` (not among the provided sources).  The env file parses to a
string→string map and is wrapped as a JSON object of strings. -/
def readGeminiEnvObj (c : Except Unit (List (String × String))) :
    Except AppError JValue :=
  match c with
  | .ok pairs => .ok (.obj (pairs.map (fun kv => (kv.1, JValue.str kv.2))))
  | .error _ => .error (.ioErr ".env")

/-- `read_droid_config` (droid_config.rs:55): an absent `config.json` reads as
the empty object, a malformed one surfaces the parse error. -/
def readDroidConfig (file : Option (Except Unit JValue)) :
    Except AppError JValue :=
  match file with
  | none => .ok (.obj [])
  | some (.error _) => .error (.jsonErr "config.json")
  | some (.ok v) => .ok v

/-- `read_live_settings` (live.rs:163). -/
def readLiveSettings (appType : AppType) (fs : LiveFiles) :
    Except AppError JValue :=
  match appType with
  | .codex =>
      match fs.codexAuth with
      | none => .error (.localized "codex.auth.missing"
          "Codex 配置文件不存在：缺少 auth.json"
          "Codex configuration missing: auth.json not found")
      | some (.error _) => .error (.jsonErr "auth.json")
      | some (.ok auth) =>
          match readCodexConfigText fs with
          | .error e => .error e
          | .ok t => .ok (.obj [("auth", auth), ("config", .str t)])
  | .claude =>
      match fs.claudeSettings with
      | none => .error (.localized "claude.live.missing"
          "Claude Code 配置文件不存在" "Claude settings file is missing")
      | some (.error _) => .error (.jsonErr "settings.json")
      | some (.ok v) => .ok v
  | .gemini =>
      match fs.geminiEnv with
      | none => .error (.localized "gemini.env.missing"
          "Gemini .env 文件不存在" "Gemini .env file not found")
      | some c =>
          match readGeminiEnvObj c with
          | .error e => .error e
          | .ok envObj =>
              match fs.geminiSettings with
              | none => .ok (.obj [("env", envObj), ("config", .obj [])])
              | some (.error _) => .error (.jsonErr "settings.json")
              | some (.ok cfg) =>
                  .ok (.obj [("env", envObj), ("config", cfg)])
  | .droid => readDroidConfig fs.droidConfig

/-- The app types iterated by `sync_current_to_live` (live.rs:141):
`[AppType::Claude, AppType::Codex, AppType::Gemini]`. -/
def syncAppTypes : List AppType := [AppType.claude, AppType.codex, AppType.gemini]

/-- `sync_current_to_live` (live.rs:140), abstracted over its two external
collaborators (`get_effective_current_provider` and the provider store) and
observed through the sequence of `write_live_snapshot` invocations it
performs: for each iterated app type, an app type with no effective current
provider is skipped (`continue`), and one whose current id resolves to a
stored provider record gets that record written to its live configuration. -/
def syncCurrentToLive (effectiveCurrent : AppType → Option String)
    (getProvider : AppType → String → Option Provider) :
    List (AppType × Provider) :=
  syncAppTypes.filterMap (fun t =>
    match effectiveCurrent t with
    | none => none
    | some currentId => (getProvider t currentId).map (fun p => (t, p)))

/-! ## Gemini (env + settings) live write, from `write_gemini_live` -/

/-- `GeminiAuthType` from `gemini_auth.rs` (only the enum is consumed here). -/
inductive GeminiAuthType where
  | googleOfficial
  | packycode
  | generic
deriving DecidableEq, Repr

/-- External collaborators of `write_gemini_live` that live in
`gemini_config.rs` / `gemini_auth.rs` (not among the provided sources); per
the spec they are specified only by the interface they expose, so they are
taken as parameters: the auth-type classification, the env-map extraction
(`json_to_env`), the strict API-key validation, and the security/selection
flag update applied to the settings document
(`ensure_google_oauth_security_flag` / `write_packycode_settings`). -/
structure GeminiCollab where
  authType : Provider → GeminiAuthType
  jsonToEnv : JValue → Except AppError (List (String × String))
  validateStrict : JValue → Except AppError Unit
  setSecurityFlag : GeminiAuthType → JValue → JValue

/-- Shallow merge of `write_gemini_live` (live.rs:364): each key of the
overlay object is inserted into the base object; non-object bases are left
unchanged (the Rust `if let` guard). -/
def shallowMerge (base overlay : JValue) : JValue :=
  match base, overlay with
  | .obj bf, .obj of =>
      .obj (of.foldl (fun acc kv => setKey acc kv.1 kv.2) bf)
  | b, _ => b

/-- Observable outcome of `write_gemini_live`: the env map written to the env
file, the value written to `settings.json` by the main write step (line 407;
`none` when that step was skipped), and the final `settings.json` content
after the auth-flag step. -/
structure GeminiOutcome where
  envWritten : List (String × String)
  settingsWritten : Option JValue
  finalSettings : JValue
deriving DecidableEq

/-- `write_gemini_live` (live.rs:337) as a transformer of the `settings.json`
file state, abstracted over the `GeminiCollab` collaborators.  The `config`
field of the provider settings drives the settings-document handling: an
object is shallow-merged into the existing document (a parse failure of the
existing document is swallowed there, starting from `{}`); `null` or absent
leaves the merge step out, re-reading the existing document (parse errors
propagate) so that it is rewritten verbatim; any other value is a validation
error.  OAuth mode clears the env map; API-key modes validate strictly before
writing. -/
def writeGeminiLive (c : GeminiCollab) (p : Provider)
    (settingsFile : Option (Except Unit JValue)) :
    Except AppError GeminiOutcome :=
  let authType := c.authType p
  match c.jsonToEnv p.settingsConfig with
  | .error e => .error e
  | .ok envMap =>
    let mergeStep : Except AppError (Option JValue) :=
      match p.settingsConfig.objGet "config" with
      | some cfg =>
          if cfg.isObj then
            let base : JValue :=
              match settingsFile with
              | some (.ok v) => v
              | _ => .obj []
            .ok (some (shallowMerge base cfg))
          else if cfg = .null then .ok none
          else .error (.localized "gemini.validation.invalid_config"
            "Gemini 配置格式错误: config 必须是对象或 null"
            "Gemini config invalid: config must be an object or null")
      | none => .ok none
    match mergeStep with
    | .error e => .error e
    | .ok merged =>
      let preserveStep : Except AppError (Option JValue) :=
        match merged with
        | some v => .ok (some v)
        | none =>
            match settingsFile with
            | none => .ok none
            | some (.error _) => .error (.jsonErr "settings.json")
            | some (.ok v) => .ok (some v)
      match preserveStep with
      | .error e => .error e
      | .ok configToWrite =>
        let envStep : Except AppError (List (String × String)) :=
          match authType with
          | .googleOfficial => .ok []
          | .packycode | .generic =>
              match c.validateStrict p.settingsConfig with
              | .error e => .error e
              | .ok _ => .ok envMap
        match envStep with
        | .error e => .error e
        | .ok envFinal =>
          let afterMainWrite : JValue :=
            match configToWrite with
            | some v => v
            | none =>
                match settingsFile with
                | some (.ok v) => v
                | _ => .obj []
          .ok { envWritten := envFinal,
                settingsWritten := configToWrite,
                finalSettings := c.setSecurityFlag authType afterMainWrite }

/-! ## Association-list lemmas -/

theorem getKey_setKey_same (f : List (String × JValue)) (k : String)
    (v : JValue) : getKey (setKey f k v) k = some v := by
  induction f with
  | nil => simp [getKey, setKey]
  | cons hd tl ih =>
      obtain ⟨k', v'⟩ := hd
      by_cases h : k' = k
      · simp [getKey, setKey, h]
      · simp [getKey, setKey, h, ih]

theorem getKey_setKey_ne (f : List (String × JValue)) (k k' : String)
    (v : JValue) (h : k' ≠ k) : getKey (setKey f k v) k' = getKey f k' := by
  induction f with
  | nil => simp [getKey, setKey, Ne.symm h]
  | cons hd tl ih =>
      obtain ⟨k0, v0⟩ := hd
      by_cases h0 : k0 = k
      · subst h0
        simp [getKey, setKey, Ne.symm h, h]
      · simp only [setKey, if_neg h0, getKey]
        by_cases h1 : k0 = k'
        · simp [h1]
        · simp [h1, ih]

theorem setKey_self (f : List (String × JValue)) (k : String) (v : JValue)
    (h : getKey f k = some v) : setKey f k v = f := by
  induction f with
  | nil => simp [getKey] at h
  | cons hd tl ih =>
      obtain ⟨k0, v0⟩ := hd
      by_cases h0 : k0 = k
      · subst h0
        simp [getKey] at h
        simp [setKey, h]
      · simp [getKey, h0] at h
        simp [setKey, h0, ih h]

theorem getKey_append (f g : List (String × JValue)) (k : String) :
    getKey (f ++ g) k = ((getKey f k).elim (getKey g k) some) := by
  induction f with
  | nil => simp [getKey]
  | cons hd tl ih =>
      obtain ⟨k0, v0⟩ := hd
      by_cases h0 : k0 = k
      · simp [getKey, h0]
      · simp [getKey, h0, ih]

theorem setKey_absent (f : List (String × JValue)) (k : String) (v : JValue)
    (h : getKey f k = none) : setKey f k v = f ++ [(k, v)] := by
  induction f with
  | nil => simp [setKey]
  | cons hd tl ih =>
      obtain ⟨k0, v0⟩ := hd
      by_cases h0 : k0 = k
      · simp [getKey, h0] at h
      · simp [getKey, h0] at h
        simp [setKey, h0, ih h]

theorem getKey_removeKey_ne (f : List (String × JValue)) (k k' : String)
    (h : k' ≠ k) : getKey (removeKey f k) k' = getKey f k' := by
  induction f with
  | nil => simp [removeKey]
  | cons hd tl ih =>
      obtain ⟨k0, v0⟩ := hd
      by_cases h0 : k0 = k
      · subst h0
        simp [getKey, removeKey, Ne.symm h]
      · simp only [removeKey, if_neg h0, getKey]
        by_cases h1 : k0 = k'
        · simp [h1]
        · simp [h1, ih]

theorem getKey_eq_none_of_not_mem (f : List (String × JValue)) (k : String)
    (h : k ∉ f.map Prod.fst) : getKey f k = none := by
  induction f with
  | nil => simp [getKey]
  | cons hd tl ih =>
      obtain ⟨k0, v0⟩ := hd
      simp only [List.map_cons, List.mem_cons, not_or] at h
      have h0 : k0 ≠ k := fun hc => h.1 hc.symm
      simp [getKey, h0, ih h.2]

theorem getKey_removeKey_same (f : List (String × JValue)) (k : String)
    (h : (f.map Prod.fst).Nodup) : getKey (removeKey f k) k = none := by
  induction f with
  | nil => simp [removeKey, getKey]
  | cons hd tl ih =>
      obtain ⟨k0, v0⟩ := hd
      simp only [List.map_cons, List.nodup_cons] at h
      by_cases h0 : k0 = k
      · subst h0
        simp only [removeKey, if_pos rfl]
        exact getKey_eq_none_of_not_mem tl k0 h.1
      · simp [removeKey, h0, getKey, ih h.2]

/-! ## Lemmas about the built Droid entry and the merge step -/

theorem buildDroidFields_displayName (o : List (String × JValue))
    (nm : String) (i : Int) :
    getKey (buildDroidFields o nm i) "displayName" = some (.str nm) := by
  simp [buildDroidFields, getKey]

theorem buildDroidFields_id (o : List (String × JValue)) (nm : String)
    (i : Int) :
    getKey (buildDroidFields o nm i) "id" = some (.str (droidModelId nm i)) := by
  simp [buildDroidFields, getKey]

theorem buildDroidFields_index (o : List (String × JValue)) (nm : String)
    (i : Int) :
    getKey (buildDroidFields o nm i) "index" = some (.num i) := by
  simp [buildDroidFields, getKey]

theorem entryName_build (o : List (String × JValue)) (nm : String) (i : Int) :
    entryName (.obj (buildDroidFields o nm i)) = some nm := by
  simp [entryName, JValue.objGet, buildDroidFields_displayName, JValue.asStr]

theorem displayName_build (o : List (String × JValue)) (nm : String) (i : Int) :
    ((((JValue.obj (buildDroidFields o nm i)).objGet "displayName").bind
      JValue.asStr)).getD "" = nm := by
  simp [JValue.objGet, buildDroidFields_displayName, JValue.asStr]

theorem updateEntry_objGet_other (old cm : JValue) (pos : Nat) (k : String)
    (hk1 : k ≠ "index") (hk2 : k ≠ "id") :
    (droidUpdateEntry old cm pos).1.objGet k = cm.objGet k := by
  cases cm with
  | obj cf =>
      unfold droidUpdateEntry
      cases hid : (old.objGet "id").bind JValue.asStr <;>
        simp [objSet, JValue.objGet, getKey_setKey_ne _ _ _ _ hk1,
          getKey_setKey_ne _ _ _ _ hk2]
  | null =>
      unfold droidUpdateEntry
      cases hid : (old.objGet "id").bind JValue.asStr <;> simp [objSet]
  | bool b =>
      unfold droidUpdateEntry
      cases hid : (old.objGet "id").bind JValue.asStr <;> simp [objSet]
  | num n =>
      unfold droidUpdateEntry
      cases hid : (old.objGet "id").bind JValue.asStr <;> simp [objSet]
  | str s =>
      unfold droidUpdateEntry
      cases hid : (old.objGet "id").bind JValue.asStr <;> simp [objSet]
  | arr xs =>
      unfold droidUpdateEntry
      cases hid : (old.objGet "id").bind JValue.asStr <;> simp [objSet]

theorem entryName_updateEntry (old : JValue) (cf : List (String × JValue))
    (pos : Nat) :
    entryName (droidUpdateEntry old (.obj cf) pos).1 =
      entryName (.obj cf) := by
  simp [entryName, updateEntry_objGet_other old (.obj cf) pos "displayName"
    (by decide) (by decide)]

theorem updateEntry_id_index (old : JValue) (cf : List (String × JValue))
    (pos : Nat) (oldId : String) (oldIdx : Int)
    (hid : (old.objGet "id").bind JValue.asStr = some oldId)
    (hidx : (old.objGet "index").bind JValue.asInt = some oldIdx) :
    (droidUpdateEntry old (.obj cf) pos).1.objGet "id" = some (.str oldId) ∧
    (droidUpdateEntry old (.obj cf) pos).1.objGet "index" = some (.num oldIdx) ∧
    (droidUpdateEntry old (.obj cf) pos).2 = oldId := by
  unfold droidUpdateEntry
  simp only [hid, hidx, Option.getD_some]
  refine ⟨?_, ?_, ?_⟩
  · simp [objSet, JValue.objGet, getKey_setKey_same]
  · simp [objSet, JValue.objGet, getKey_setKey_same,
      getKey_setKey_ne _ _ _ _ (by decide : ("index" : String) ≠ "id")]
  · trivial

theorem droidMergeAux_eq_none (models : List JValue) (cm : JValue)
    (dn : String) (pos : Nat) :
    droidMergeAux models cm dn pos = none ↔
      ∀ m ∈ models, ¬ entryName m = some dn := by
  induction models generalizing pos with
  | nil => simp [droidMergeAux]
  | cons m rest ih =>
      by_cases hm : entryName m = some dn
      · simp [droidMergeAux, hm]
      · simp [droidMergeAux, hm, ih]

theorem droidMergeAux_found (pre : List JValue) (old : JValue)
    (post : List JValue) (cm : JValue) (dn : String) (pos : Nat)
    (hpre : ∀ m ∈ pre, ¬ entryName m = some dn)
    (hold : entryName old = some dn) :
    droidMergeAux (pre ++ old :: post) cm dn pos =
      some (pre ++ (droidUpdateEntry old cm (pos + pre.length)).1 :: post,
        (droidUpdateEntry old cm (pos + pre.length)).2) := by
  induction pre generalizing pos with
  | nil => simp [droidMergeAux, hold]
  | cons m rest ih =>
      have hm : ¬ entryName m = some dn := hpre m (by simp)
      have hrest : ∀ x ∈ rest, ¬ entryName x = some dn :=
        fun x hx => hpre x (by simp [hx])
      have := ih (pos + 1) hrest
      simp only [List.cons_append, droidMergeAux, if_neg hm, this,
        Option.map_some]
      have harith : pos + 1 + rest.length = pos + (rest.length + 1) := by omega
      rw [harith] at this
      simp [this, List.length_cons]

theorem droidMergeAux_eq_some (models : List JValue) (cm : JValue)
    (dn : String) (pos : Nat) (r : List JValue × String)
    (h : droidMergeAux models cm dn pos = some r) :
    ∃ pre old post, models = pre ++ old :: post ∧
      (∀ m ∈ pre, ¬ entryName m = some dn) ∧ entryName old = some dn ∧
      r = (pre ++ (droidUpdateEntry old cm (pos + pre.length)).1 :: post,
        (droidUpdateEntry old cm (pos + pre.length)).2) := by
  induction models generalizing pos r with
  | nil => simp [droidMergeAux] at h
  | cons m rest ih =>
      by_cases hm : entryName m = some dn
      · refine ⟨[], m, rest, by simp, by simp, hm, ?_⟩
        simp only [droidMergeAux, if_pos hm, Option.some.injEq] at h
        simpa using h.symm
      · simp only [droidMergeAux, if_neg hm, Option.map_eq_some'] at h
        obtain ⟨r', hr', hr⟩ := h
        obtain ⟨pre, old, post, hdec, hpre, hold, hres⟩ := ih (pos + 1) r' hr'
        refine ⟨m :: pre, old, post, by simp [hdec], ?_, hold, ?_⟩
        · intro x hx
          rcases List.mem_cons.mp hx with h1 | h1
          · exact h1 ▸ hm
          · exact hpre x h1
        · have harith : pos + 1 + pre.length = pos + (m :: pre).length := by
            simp [List.length_cons]; omega
          subst hr
          rw [hres]
          simp [harith]

theorem setKey_append_single (f : List (String × JValue)) (k : String)
    (w x : JValue) (h : getKey f k = none) :
    setKey (f ++ [(k, w)]) k x = f ++ [(k, x)] := by
  induction f with
  | nil => simp [setKey]
  | cons hd tl ih =>
      obtain ⟨k0, v0⟩ := hd
      by_cases h0 : k0 = k
      · simp [getKey, h0] at h
      · simp [getKey, h0] at h
        simp [setKey, h0, ih h]

theorem getKey_droidSetSessionModel_ne (f : List (String × JValue))
    (fid : String) (k : String) (h : k ≠ "sessionDefaultSettings") :
    getKey (droidSetSessionModel f fid) k = getKey f k := by
  unfold droidSetSessionModel
  by_cases hf : fid = ""
  · simp [hf]
  · simp only [if_neg hf]
    rcases hg : getKey f "sessionDefaultSettings" with _ | v
    · rw [getKey_append]
      cases hk : getKey f k <;> simp [getKey, Ne.symm h]
    · cases v <;> simp [getKey_setKey_ne _ _ _ _ h]

theorem droidMergeModels_append (models : List JValue) (cm : JValue)
    (dn : String) (h : ∀ m ∈ models, ¬ entryName m = some dn) :
    droidMergeModels models cm dn =
      (models ++ [cm], ((cm.objGet "id").bind JValue.asStr).getD "") := by
  unfold droidMergeModels
  rw [(droidMergeAux_eq_none models cm dn 0).mpr h]

theorem droidMergeModels_found (pre : List JValue) (old : JValue)
    (post : List JValue) (cm : JValue) (dn : String)
    (hpre : ∀ m ∈ pre, ¬ entryName m = some dn)
    (hold : entryName old = some dn) :
    droidMergeModels (pre ++ old :: post) cm dn =
      (pre ++ (droidUpdateEntry old cm pre.length).1 :: post,
        (droidUpdateEntry old cm pre.length).2) := by
  unfold droidMergeModels
  rw [droidMergeAux_found pre old post cm dn 0 hpre hold]
  simp

theorem droidWrite_ok_elim (p : Provider) (s out : JValue)
    (h : droidWrite p s = .ok out) :
    ∃ fields o, s = .obj fields ∧ p.settingsConfig = .obj o ∧
      out = .obj (droidSetSessionModel
        (setKey fields "customModels"
          (.arr (droidMergeModels (droidModelsOf s)
            (.obj (buildDroidFields o p.name (nextDroidIndex (droidModelsOf s))))
            p.name).1))
        (droidMergeModels (droidModelsOf s)
          (.obj (buildDroidFields o p.name (nextDroidIndex (droidModelsOf s))))
          p.name).2) := by
  cases s with
  | null => simp [droidWrite] at h
  | bool b => simp [droidWrite] at h
  | num n => simp [droidWrite] at h
  | str s' => simp [droidWrite] at h
  | arr xs => simp [droidWrite] at h
  | obj fields =>
      rcases hm : getKey fields "customModels" with _ | v
      · simp only [droidWrite, hm] at h
        cases hsc : p.settingsConfig with
        | obj o =>
            simp only [droidWriteCore, hsc, buildDroidSettingsModel,
              displayName_build, Except.ok.injEq] at h
            refine ⟨fields, o, rfl, rfl, ?_⟩
            have hms : droidModelsOf (.obj fields) = [] := by
              simp [droidModelsOf, JValue.objGet, hm]
            rw [hms, ← h,
              setKey_append_single fields "customModels" (.arr []) _ hm,
              ← setKey_absent fields "customModels" _ hm]
        | null => simp [droidWriteCore, hsc, buildDroidSettingsModel] at h
        | bool b => simp [droidWriteCore, hsc, buildDroidSettingsModel] at h
        | num n => simp [droidWriteCore, hsc, buildDroidSettingsModel] at h
        | str s' => simp [droidWriteCore, hsc, buildDroidSettingsModel] at h
        | arr xs => simp [droidWriteCore, hsc, buildDroidSettingsModel] at h
      · cases v with
        | arr models =>
            simp only [droidWrite, hm] at h
            cases hsc : p.settingsConfig with
            | obj o =>
                simp only [droidWriteCore, hsc, buildDroidSettingsModel,
                  displayName_build, Except.ok.injEq] at h
                refine ⟨fields, o, rfl, rfl, ?_⟩
                have hms : droidModelsOf (.obj fields) = models := by
                  simp [droidModelsOf, JValue.objGet, hm]
                rw [hms, ← h]
            | null => simp [droidWriteCore, hsc, buildDroidSettingsModel] at h
            | bool b => simp [droidWriteCore, hsc, buildDroidSettingsModel] at h
            | num n => simp [droidWriteCore, hsc, buildDroidSettingsModel] at h
            | str s' => simp [droidWriteCore, hsc, buildDroidSettingsModel] at h
            | arr xs => simp [droidWriteCore, hsc, buildDroidSettingsModel] at h
        | null => simp [droidWrite, hm] at h
        | bool b => simp [droidWrite, hm] at h
        | num n => simp [droidWrite, hm] at h
        | str s' => simp [droidWrite, hm] at h
        | obj o => simp [droidWrite, hm] at h

/-! ## At-most-one-entry-per-display-name invariant -/

/-- "At most one entry per display name": no two entries of the array carry
the same (string) display name. -/
def NamesUnique (models : List JValue) : Prop :=
  List.Pairwise (fun a b => entryName a = none ∨ entryName a ≠ entryName b)
    models

instance (models : List JValue) : Decidable (NamesUnique models) := by
  unfold NamesUnique
  infer_instance

theorem NamesUnique_replace (pre post : List JValue) (a b : JValue)
    (hab : entryName a = entryName b) (h : NamesUnique (pre ++ a :: post)) :
    NamesUnique (pre ++ b :: post) := by
  unfold NamesUnique at *
  rw [List.pairwise_append] at *
  obtain ⟨h1, h2, h3⟩ := h
  rw [List.pairwise_cons] at h2
  refine ⟨h1, List.pairwise_cons.mpr ⟨?_, h2.2⟩, ?_⟩
  · intro x hx
    rcases h2.1 x hx with hl | hr
    · exact Or.inl (hab ▸ hl)
    · exact Or.inr (hab ▸ hr)
  · intro x hx y hy
    rcases List.mem_cons.mp hy with rfl | hy'
    · rcases h3 x hx a (by simp) with hl | hr
      · exact Or.inl hl
      · exact Or.inr (hab ▸ hr)
    · exact h3 x hx y (by simp [hy'])

/-- Result of the merge step as a document: the entries array of the written
settings document is exactly the merged array. -/
theorem droidModelsOf_result (fields : List (String × JValue))
    (ms : List JValue) (fid : String) :
    droidModelsOf (.obj (droidSetSessionModel
      (setKey fields "customModels" (.arr ms)) fid)) = ms := by
  unfold droidModelsOf
  rw [show (JValue.obj (droidSetSessionModel
      (setKey fields "customModels" (.arr ms)) fid)).objGet "customModels" =
      getKey (droidSetSessionModel (setKey fields "customModels" (.arr ms)) fid)
        "customModels" from rfl]
  rw [getKey_droidSetSessionModel_ne _ _ _ (by decide), getKey_setKey_same]

theorem NamesUnique_merge (models : List JValue) (o : List (String × JValue))
    (nm : String) (n : Int) (h : NamesUnique models) :
    NamesUnique (droidMergeModels models
      (.obj (buildDroidFields o nm n)) nm).1 := by
  rcases haux : droidMergeAux models (.obj (buildDroidFields o nm n)) nm 0
    with _ | r
  · have hn := (droidMergeAux_eq_none models _ nm 0).mp haux
    unfold droidMergeModels
    rw [haux]
    unfold NamesUnique
    rw [List.pairwise_append]
    refine ⟨h, List.pairwise_singleton _ _, ?_⟩
    intro a ha b hb
    simp only [List.mem_singleton] at hb
    subst hb
    rcases hna : entryName a with _ | s
    · exact Or.inl rfl
    · refine Or.inr ?_
      rw [entryName_build]
      intro hc
      exact hn a ha (hna.trans hc)
  · obtain ⟨pre, old, post, hdec, hpre, hold, hres⟩ :=
      droidMergeAux_eq_some models _ nm 0 r haux
    unfold droidMergeModels
    rw [haux]
    subst hdec
    rw [hres]
    refine NamesUnique_replace pre post old _ ?_ h
    rw [hold, entryName_updateEntry, entryName_build]

/-- C1: on every successful write to the collection-style (Droid) live
document, (i) "at most one entry per display name" is preserved; (ii) when an
entry whose `displayName` equals the incoming provider name already exists
(first occurrence decomposition), the written entry keeps the `id` of that entry
and `index`; (iii) when no such entry exists, the new entry is appended with
index `nextDroidIndex` (one greater than the maximum index present, 0 when
none) and id `custom:<sanitized-name>-<index>` (`droidModelId`). -/
theorem C1_entry_identity (p : Provider) (s out : JValue)
    (h : droidWrite p s = .ok out) :
    (NamesUnique (droidModelsOf s) → NamesUnique (droidModelsOf out))
    ∧ (∀ pre old post oldId oldIdx,
        droidModelsOf s = pre ++ old :: post →
        (∀ m ∈ pre, ¬ entryName m = some p.name) →
        entryName old = some p.name →
        (old.objGet "id").bind JValue.asStr = some oldId →
        (old.objGet "index").bind JValue.asInt = some oldIdx →
        ∃ upd, droidModelsOf out = pre ++ upd :: post ∧
          upd.objGet "id" = some (.str oldId) ∧
          upd.objGet "index" = some (.num oldIdx))
    ∧ ((∀ m ∈ droidModelsOf s, ¬ entryName m = some p.name) →
        droidModelsOf out = droidModelsOf s ++
          [.obj (buildDroidFields
            (match p.settingsConfig with | .obj o => o | _ => [])
            p.name (nextDroidIndex (droidModelsOf s)))] ∧
        ∃ newE, droidModelsOf out = droidModelsOf s ++ [newE] ∧
          newE.objGet "index" = some (.num (nextDroidIndex (droidModelsOf s))) ∧
          newE.objGet "id" =
            some (.str (droidModelId p.name
              (nextDroidIndex (droidModelsOf s))))) := by
  obtain ⟨fields, o, hs, hsc, hout⟩ := droidWrite_ok_elim p s out h
  have hmodels : droidModelsOf out =
      (droidMergeModels (droidModelsOf s)
        (.obj (buildDroidFields o p.name (nextDroidIndex (droidModelsOf s))))
        p.name).1 := by
    rw [hout, droidModelsOf_result]
  refine ⟨?_, ?_, ?_⟩
  · intro hu
    rw [hmodels]
    exact NamesUnique_merge _ o p.name _ hu
  · intro pre old post oldId oldIdx hdec hpre hold hid hidx
    rw [hmodels, hdec, droidMergeModels_found pre old post _ p.name hpre hold]
    obtain ⟨h1, h2, _⟩ := updateEntry_id_index old
      (buildDroidFields o p.name (nextDroidIndex (pre ++ old :: post)))
      pre.length oldId oldIdx hid hidx
    exact ⟨_, rfl, h1, h2⟩
  · intro hnone
    rw [hmodels, droidMergeModels_append _ _ p.name hnone]
    refine ⟨by rw [hsc], _, rfl, ?_, ?_⟩
    · simpa [JValue.objGet] using buildDroidFields_index o p.name _
    · simpa [JValue.objGet] using buildDroidFields_id o p.name _

/-! ## Idempotence of the Droid write -/

theorem build_override_indep (o : List (String × JValue)) (nm : String)
    (n n' : Int) (v w : JValue) :
    setKey (setKey (buildDroidFields o nm n) "index" v) "id" w =
      setKey (setKey (buildDroidFields o nm n') "index" v) "id" w := by
  simp [buildDroidFields, setKey]

theorem build_override_id (o : List (String × JValue)) (nm : String)
    (n n' : Int) (v : JValue) :
    setKey (setKey (buildDroidFields o nm n') "index" v) "id"
        (.str (droidModelId nm n)) =
      setKey (buildDroidFields o nm n) "index" v := by
  simp [buildDroidFields, setKey]

theorem objGet_build_id (o : List (String × JValue)) (nm : String) (n : Int) :
    (JValue.obj (buildDroidFields o nm n)).objGet "id" =
      some (.str (droidModelId nm n)) := by
  simp [JValue.objGet, buildDroidFields_id]

theorem objGet_build_index (o : List (String × JValue)) (nm : String)
    (n : Int) :
    (JValue.obj (buildDroidFields o nm n)).objGet "index" =
      some (.num n) := by
  simp [JValue.objGet, buildDroidFields_index]

theorem droidSetSessionModel_none (f : List (String × JValue)) (fid : String)
    (hf : fid ≠ "") (hg : getKey f "sessionDefaultSettings" = none) :
    droidSetSessionModel f fid =
      f ++ [("sessionDefaultSettings", JValue.obj [("model", JValue.str fid)])] := by
  rw [droidSetSessionModel]
  simp [if_neg hf, hg]

theorem droidSetSessionModel_obj (f : List (String × JValue)) (fid : String)
    (sf : List (String × JValue)) (hf : fid ≠ "")
    (hg : getKey f "sessionDefaultSettings" = some (.obj sf)) :
    droidSetSessionModel f fid =
      setKey f "sessionDefaultSettings" (.obj (setKey sf "model" (.str fid))) := by
  rw [droidSetSessionModel]
  simp [if_neg hf, hg]

theorem droidSetSessionModel_other (f : List (String × JValue)) (fid : String)
    (v : JValue) (hf : fid ≠ "")
    (hg : getKey f "sessionDefaultSettings" = some v)
    (hv : v.isObj = false) : droidSetSessionModel f fid = f := by
  rw [droidSetSessionModel]
  cases v <;> simp_all [if_neg hf, hg, JValue.isObj]

theorem sessionModel_idem (f : List (String × JValue)) (fid : String) :
    droidSetSessionModel (droidSetSessionModel f fid) fid =
      droidSetSessionModel f fid := by
  by_cases hf : fid = ""
  · simp [droidSetSessionModel, hf]
  · rcases hg : getKey f "sessionDefaultSettings" with _ | v
    · rw [droidSetSessionModel_none f fid hf hg]
      have hget : getKey (f ++ [("sessionDefaultSettings",
          JValue.obj [("model", JValue.str fid)])]) "sessionDefaultSettings" =
          some (JValue.obj [("model", JValue.str fid)]) := by
        rw [getKey_append, hg]
        rfl
      rw [droidSetSessionModel_obj _ fid [("model", JValue.str fid)] hf hget]
      have hinner : setKey [("model", JValue.str fid)] "model"
          (JValue.str fid) = [("model", JValue.str fid)] := by
        simp [setKey]
      rw [hinner]
      exact setKey_self _ _ _ hget
    · cases v with
      | obj sf =>
          rw [droidSetSessionModel_obj f fid sf hf hg]
          rw [droidSetSessionModel_obj _ fid (setKey sf "model" (.str fid)) hf
            (getKey_setKey_same f "sessionDefaultSettings" _)]
          rw [setKey_self _ _ _ (getKey_setKey_same sf "model" (.str fid))]
          exact setKey_self _ _ _
            (getKey_setKey_same f "sessionDefaultSettings" _)
      | null =>
          rw [droidSetSessionModel_other f fid _ hf hg rfl]
          exact droidSetSessionModel_other f fid _ hf hg rfl
      | bool b =>
          rw [droidSetSessionModel_other f fid _ hf hg rfl]
          exact droidSetSessionModel_other f fid _ hf hg rfl
      | num n =>
          rw [droidSetSessionModel_other f fid _ hf hg rfl]
          exact droidSetSessionModel_other f fid _ hf hg rfl
      | str s =>
          rw [droidSetSessionModel_other f fid _ hf hg rfl]
          exact droidSetSessionModel_other f fid _ hf hg rfl
      | arr xs =>
          rw [droidSetSessionModel_other f fid _ hf hg rfl]
          exact droidSetSessionModel_other f fid _ hf hg rfl

theorem droidMerge_stable (models : List JValue) (o : List (String × JValue))
    (nm : String) (n1 n2 : Int) :
    droidMergeModels
      (droidMergeModels models (.obj (buildDroidFields o nm n1)) nm).1
      (.obj (buildDroidFields o nm n2)) nm =
    droidMergeModels models (.obj (buildDroidFields o nm n1)) nm := by
  rcases haux : droidMergeAux models (.obj (buildDroidFields o nm n1)) nm 0
    with _ | r
  · -- append case
    have hn := (droidMergeAux_eq_none models _ nm 0).mp haux
    have hm1 : droidMergeModels models (.obj (buildDroidFields o nm n1)) nm =
        (models ++ [.obj (buildDroidFields o nm n1)], droidModelId nm n1) := by
      unfold droidMergeModels
      rw [haux]
      simp [objGet_build_id, JValue.asStr]
    rw [hm1]
    rw [droidMergeModels_found models (.obj (buildDroidFields o nm n1)) []
      (.obj (buildDroidFields o nm n2)) nm hn (entryName_build o nm n1)]
    have hupd : droidUpdateEntry (.obj (buildDroidFields o nm n1))
        (.obj (buildDroidFields o nm n2)) models.length =
        (.obj (buildDroidFields o nm n1), droidModelId nm n1) := by
      unfold droidUpdateEntry
      rw [objGet_build_index, objGet_build_id]
      simp only [JValue.asInt, JValue.asStr, Option.some_bind,
        Option.getD_some, objSet]
      rw [build_override_id o nm n1 n2 (.num n1)]
      rw [setKey_self _ _ _ (buildDroidFields_index o nm n1)]
    rw [hupd]
  · -- replace case
    obtain ⟨pre, old, post, hdec, hpre, hold, hres⟩ :=
      droidMergeAux_eq_some models _ nm 0 r haux
    have hm1 : droidMergeModels models (.obj (buildDroidFields o nm n1)) nm = r := by
      unfold droidMergeModels
      rw [haux]
    rw [hm1, hres]
    simp only [Nat.zero_add]
    have hold2 : entryName (droidUpdateEntry old
        (.obj (buildDroidFields o nm n1)) pre.length).1 = some nm := by
      rw [entryName_updateEntry, entryName_build]
    rw [droidMergeModels_found pre _ post (.obj (buildDroidFields o nm n2)) nm
      hpre hold2]
    -- it remains to show the second update reproduces the first
    suffices hstab : droidUpdateEntry
        (droidUpdateEntry old (.obj (buildDroidFields o nm n1)) pre.length).1
        (.obj (buildDroidFields o nm n2)) pre.length =
        droidUpdateEntry old (.obj (buildDroidFields o nm n1)) pre.length by
      rw [hstab]
    rcases hid : (old.objGet "id").bind JValue.asStr with _ | oldId
    · -- the matched entry had no usable id: the generated id is kept
      have hupd1 : droidUpdateEntry old (.obj (buildDroidFields o nm n1))
          pre.length =
          (.obj (setKey (buildDroidFields o nm n1) "index"
            (.num (((old.objGet "index").bind JValue.asInt).getD
              (Int.ofNat pre.length)))),
           droidModelId nm n1) := by
        unfold droidUpdateEntry
        simp only [hid, objSet]
        have : ((JValue.obj (setKey (buildDroidFields o nm n1) "index"
            (.num (((old.objGet "index").bind JValue.asInt).getD
              (Int.ofNat pre.length))))).objGet "id").bind JValue.asStr =
            some (droidModelId nm n1) := by
          rw [show (JValue.obj (setKey (buildDroidFields o nm n1) "index" _)).objGet "id"
            = getKey (setKey (buildDroidFields o nm n1) "index" _) "id" from rfl]
          rw [getKey_setKey_ne _ _ _ _ (by decide), buildDroidFields_id]
          rfl
        rw [this]
        rfl
      rw [hupd1]
      unfold droidUpdateEntry
      have hidx2 : ((JValue.obj (setKey (buildDroidFields o nm n1) "index"
          (.num (((old.objGet "index").bind JValue.asInt).getD
            (Int.ofNat pre.length))))).objGet "index").bind JValue.asInt =
          some (((old.objGet "index").bind JValue.asInt).getD
            (Int.ofNat pre.length)) := by
        rw [show (JValue.obj (setKey (buildDroidFields o nm n1) "index" _)).objGet "index"
          = getKey (setKey (buildDroidFields o nm n1) "index" _) "index" from rfl]
        rw [getKey_setKey_same]
        rfl
      have hid2 : ((JValue.obj (setKey (buildDroidFields o nm n1) "index"
          (.num (((old.objGet "index").bind JValue.asInt).getD
            (Int.ofNat pre.length))))).objGet "id").bind JValue.asStr =
          some (droidModelId nm n1) := by
        rw [show (JValue.obj (setKey (buildDroidFields o nm n1) "index" _)).objGet "id"
          = getKey (setKey (buildDroidFields o nm n1) "index" _) "id" from rfl]
        rw [getKey_setKey_ne _ _ _ _ (by decide), buildDroidFields_id]
        rfl
      rw [hidx2, hid2]
      simp only [Option.getD_some, objSet]
      rw [build_override_id o nm n1 n2]
    · -- the id string of the matched entry is preserved
      have hupd1 : droidUpdateEntry old (.obj (buildDroidFields o nm n1))
          pre.length =
          (.obj (setKey (setKey (buildDroidFields o nm n1) "index"
            (.num (((old.objGet "index").bind JValue.asInt).getD
              (Int.ofNat pre.length)))) "id" (.str oldId)),
           oldId) := by
        unfold droidUpdateEntry
        simp only [hid, objSet]
      rw [hupd1]
      unfold droidUpdateEntry
      have hidx2 : ((JValue.obj (setKey (setKey (buildDroidFields o nm n1)
          "index" (.num (((old.objGet "index").bind JValue.asInt).getD
            (Int.ofNat pre.length)))) "id" (.str oldId))).objGet
            "index").bind JValue.asInt =
          some (((old.objGet "index").bind JValue.asInt).getD
            (Int.ofNat pre.length)) := by
        rw [show (JValue.obj (setKey (setKey (buildDroidFields o nm n1) "index" _) "id" _)).objGet "index"
          = getKey (setKey (setKey (buildDroidFields o nm n1) "index" _) "id" _) "index" from rfl]
        rw [getKey_setKey_ne _ _ _ _ (by decide), getKey_setKey_same]
        rfl
      have hid2 : ((JValue.obj (setKey (setKey (buildDroidFields o nm n1)
          "index" (.num (((old.objGet "index").bind JValue.asInt).getD
            (Int.ofNat pre.length)))) "id" (.str oldId))).objGet
            "id").bind JValue.asStr = some oldId := by
        rw [show (JValue.obj (setKey (setKey (buildDroidFields o nm n1) "index" _) "id" _)).objGet "id"
          = getKey (setKey (setKey (buildDroidFields o nm n1) "index" _) "id" _) "id" from rfl]
        rw [getKey_setKey_same]
        rfl
      rw [hidx2, hid2]
      simp only [Option.getD_some, objSet]
      rw [build_override_indep o nm n2 n1]

/-- C2: writing the same provider twice in a row to the collection-style live
document is idempotent: if the first write produces document `s1`, writing the
same provider against `s1` succeeds and reproduces `s1` exactly (same entry,
same `id`, same `index`, same `sessionDefaultSettings.model` pointer). -/
theorem C2_write_idempotent (p : Provider) (s s1 : JValue)
    (h : droidWrite p s = .ok s1) : droidWrite p s1 = .ok s1 := by
  obtain ⟨fields, o, hs, hsc, hout⟩ := droidWrite_ok_elim p s s1 h
  subst hout
  have hcm : getKey (droidSetSessionModel
      (setKey fields "customModels"
        (.arr (droidMergeModels (droidModelsOf s)
          (.obj (buildDroidFields o p.name (nextDroidIndex (droidModelsOf s))))
          p.name).1))
      (droidMergeModels (droidModelsOf s)
        (.obj (buildDroidFields o p.name (nextDroidIndex (droidModelsOf s))))
        p.name).2) "customModels" =
      some (.arr (droidMergeModels (droidModelsOf s)
        (.obj (buildDroidFields o p.name (nextDroidIndex (droidModelsOf s))))
        p.name).1) := by
    rw [getKey_droidSetSessionModel_ne _ _ _ (by decide), getKey_setKey_same]
  simp only [droidWrite, hcm, droidWriteCore, hsc, buildDroidSettingsModel,
    displayName_build, Except.ok.injEq]
  rw [droidMerge_stable (droidModelsOf s) o p.name
    (nextDroidIndex (droidModelsOf s)) _]
  rw [setKey_self _ _ _ hcm]
  rw [sessionModel_idem]

/-! ## Concrete scenario inputs -/

/-- Provider of the spec scenario: name `acme`, settings
`{apiKey:"k1", baseUrl:"https://x", model:"m1"}`. -/
def acmeProvider : Provider :=
  ⟨"acme-id", "acme", .obj [("apiKey", .str "k1"),
    ("baseUrl", .str "https://x"), ("model", .str "m1")]⟩

/-- Document produced by writing `acmeProvider` to an absent or empty
collection document. -/
def acmeDoc : JValue :=
  .obj [("customModels", .arr [.obj [
      ("model", .str "m1"),
      ("id", .str "custom:acme-0"),
      ("index", .num 0),
      ("baseUrl", .str "https://x"),
      ("apiKey", .str "k1"),
      ("displayName", .str "acme"),
      ("maxOutputTokens", .num 131072),
      ("noImageSupport", .bool false),
      ("provider", .str "anthropic")]]),
    ("sessionDefaultSettings", .obj [("model", .str "custom:acme-0")])]

/-- A pre-existing entry named `alpha` with index 0. -/
def entryAlpha : JValue :=
  .obj [("displayName", .str "alpha"), ("id", .str "custom:alpha-0"),
    ("index", .num 0)]

/-- A pre-existing entry named `beta` with index 2. -/
def entryBeta : JValue :=
  .obj [("displayName", .str "beta"), ("id", .str "custom:beta-2"),
    ("index", .num 2)]

/-- Provider named `beta` carrying a fresh api key. -/
def betaProvider : Provider :=
  ⟨"beta-id", "beta", .obj [("apiKey", .str "k2")]⟩

/-- Fields of a collection document holding `alpha` and `beta` plus an
unrelated field. -/
def betaFields : List (String × JValue) :=
  [("customModels", .arr [entryAlpha, entryBeta]), ("theme", .str "dark")]

/-- Collection document holding `alpha` and `beta` plus an unrelated field. -/
def betaDoc : JValue := .obj betaFields

/-- The entry `beta` after re-registration: id and index kept, fields
rebuilt. -/
def entryBetaUpd : JValue :=
  .obj [("model", .str "claude-sonnet-4-5-20250929"),
    ("id", .str "custom:beta-2"),
    ("index", .num 2),
    ("baseUrl", .str ""),
    ("apiKey", .str "k2"),
    ("displayName", .str "beta"),
    ("maxOutputTokens", .num 131072),
    ("noImageSupport", .bool false),
    ("provider", .str "anthropic")]

/-- Result of writing `betaProvider` over `betaDoc`. -/
def betaDocOut : JValue :=
  .obj [("customModels", .arr [entryAlpha, entryBetaUpd]),
    ("theme", .str "dark"),
    ("sessionDefaultSettings", .obj [("model", .str "custom:beta-2")])]

/-- Provider with a non-ASCII (CJK) display name: its characters are Unicode
alphanumerics, so sanitization keeps them. -/
def zhProvider : Provider := ⟨"zh-id", "中文", .obj [("apiKey", .str "kz")]⟩

/-- Result of writing `zhProvider` to an empty collection document. -/
def zhDoc : JValue :=
  .obj [("customModels", .arr [.obj [
      ("model", .str "claude-sonnet-4-5-20250929"),
      ("id", .str "custom:中文-0"),
      ("index", .num 0),
      ("baseUrl", .str ""),
      ("apiKey", .str "kz"),
      ("displayName", .str "中文"),
      ("maxOutputTokens", .num 131072),
      ("noImageSupport", .bool false),
      ("provider", .str "anthropic")]]),
    ("sessionDefaultSettings", .obj [("model", .str "custom:中文-0")])]

set_option maxRecDepth 16384 in
/-- C1 witness: a concrete run over a two-entry collection in which `beta`
already exists (uniqueness preserved, id `custom:beta-2` and index 2 kept),
and a concrete append run with the CJK provider name `中文` whose minted id
`custom:中文-0` keeps the non-ASCII alphanumerics. -/
theorem C1_entry_identity_witness :
    (droidWrite betaProvider betaDoc = .ok betaDocOut ∧
     NamesUnique (droidModelsOf betaDocOut) ∧
     (∃ upd, droidModelsOf betaDocOut = [entryAlpha] ++ upd :: [] ∧
       upd.objGet "id" = some (.str "custom:beta-2") ∧
       upd.objGet "index" = some (.num 2))) ∧
    (droidWrite zhProvider (.obj []) = .ok zhDoc ∧
     droidModelId "中文" 0 = "custom:中文-0" ∧
     (∃ newE, droidModelsOf zhDoc = droidModelsOf (JValue.obj []) ++ [newE] ∧
       newE.objGet "index" =
         some (.num (nextDroidIndex (droidModelsOf (JValue.obj [])))) ∧
       newE.objGet "id" = some (.str (droidModelId "中文"
         (nextDroidIndex (droidModelsOf (JValue.obj []))))))) :=
  ⟨⟨rfl,
    (C1_entry_identity betaProvider betaDoc betaDocOut rfl).1 (by decide),
    (C1_entry_identity betaProvider betaDoc betaDocOut rfl).2.1 [entryAlpha]
      entryBeta [] "custom:beta-2" 2 (by decide) (by decide) (by decide)
      (by decide) (by decide)⟩,
   ⟨rfl, rfl,
    ((C1_entry_identity zhProvider (.obj []) zhDoc rfl).2.2 (by decide)).2⟩⟩

/-- C2 witness: concrete idempotent run on the `acme` scenario. -/
theorem C2_write_idempotent_witness :
    droidWrite acmeProvider (.obj []) = .ok acmeDoc ∧
    droidWrite acmeProvider acmeDoc = .ok acmeDoc :=
  ⟨rfl, C2_write_idempotent acmeProvider (.obj []) acmeDoc rfl⟩

/-- C3: writing provider `{name:"acme", settings:{apiKey:"k1",
baseUrl:"https://x", model:"m1"}}` to an absent or empty collection-style
live document yields a document whose `customModels` array has exactly one
entry, with index 0, id `custom:acme-0` and apiKey `k1`, and whose
`sessionDefaultSettings.model` equals `custom:acme-0`. -/
theorem C3_empty_write_scenario :
    droidWriteFile acmeProvider none = .ok acmeDoc ∧
    droidWrite acmeProvider (.obj []) = .ok acmeDoc ∧
    (droidModelsOf acmeDoc).length = 1 ∧
    (∀ e ∈ droidModelsOf acmeDoc,
      e.objGet "index" = some (.num 0) ∧
      e.objGet "id" = some (.str "custom:acme-0") ∧
      e.objGet "apiKey" = some (.str "k1")) ∧
    (acmeDoc.objGet "sessionDefaultSettings").bind
      (fun v => v.objGet "model") = some (.str "custom:acme-0") := by
  refine ⟨rfl, rfl, rfl, ?_, rfl⟩
  decide

/-- C4: on every successful write of a provider to the collection-style live
document, every pre-existing entry whose display name differs from the
incoming provider's name is present, unchanged, in the resulting document. -/
theorem C4_other_entries_preserved (p : Provider) (s out : JValue)
    (h : droidWrite p s = .ok out) :
    ∀ e ∈ droidModelsOf s, ¬ entryName e = some p.name →
      e ∈ droidModelsOf out := by
  obtain ⟨fields, o, hs, hsc, hout⟩ := droidWrite_ok_elim p s out h
  have hmodels : droidModelsOf out =
      (droidMergeModels (droidModelsOf s)
        (.obj (buildDroidFields o p.name (nextDroidIndex (droidModelsOf s))))
        p.name).1 := by
    rw [hout, droidModelsOf_result]
  intro e he hne
  rw [hmodels]
  rcases haux : droidMergeAux (droidModelsOf s)
      (.obj (buildDroidFields o p.name (nextDroidIndex (droidModelsOf s))))
      p.name 0 with _ | r
  · unfold droidMergeModels
    rw [haux]
    exact List.mem_append_left _ he
  · obtain ⟨pre, old, post, hdec, hpre, hold, hres⟩ :=
      droidMergeAux_eq_some _ _ p.name 0 r haux
    unfold droidMergeModels
    rw [haux, hres]
    rw [hdec] at he
    rcases List.mem_append.mp he with h1 | h1
    · exact List.mem_append_left _ h1
    · rcases List.mem_cons.mp h1 with rfl | h2
      · exact absurd hold hne
      · exact List.mem_append_right _ (List.mem_cons_of_mem _ h2)

/-- C4 witness: in the concrete `beta` re-registration run, the unrelated
entry `alpha` survives unchanged. -/
theorem C4_other_entries_preserved_witness :
    droidWrite betaProvider betaDoc = .ok betaDocOut ∧
    entryAlpha ∈ droidModelsOf betaDocOut :=
  ⟨rfl, C4_other_entries_preserved betaProvider betaDoc betaDocOut rfl
    entryAlpha (by decide) (by decide)⟩

/-! ## Removal of a provider from the collection document -/

/-- C5: removing a provider from the collection-style live document removes
exactly the entries whose `displayName` equals the given name, leaves every
other top-level field (selection pointer included) unchanged, is a no-op when
no entry matches, and the document is persisted (the file-level operation
returns a written document) exactly when something was removed; a document
without a `customModels` array is left entirely alone. -/
theorem C5_remove_provider (nm : String) (fields : List (String × JValue))
    (models : List JValue)
    (hm : getKey fields "customModels" = some (.arr models)) :
    droidModelsOf (removeDroidCustomModel nm (.obj fields)).1 =
      models.filter (fun m => ¬ entryName m = some nm)
    ∧ (∀ k, k ≠ "customModels" →
        (removeDroidCustomModel nm (.obj fields)).1.objGet k =
          (JValue.obj fields).objGet k)
    ∧ ((removeDroidCustomModel nm (.obj fields)).2 = true ↔
        ∃ m ∈ models, entryName m = some nm)
    ∧ ((∀ m ∈ models, ¬ entryName m = some nm) →
        (removeDroidCustomModel nm (.obj fields)).1 = .obj fields)
    ∧ removeDroidFile nm (some (.ok (.obj fields))) =
        .ok (if (removeDroidCustomModel nm (.obj fields)).2 then
          some (removeDroidCustomModel nm (.obj fields)).1 else none)
    ∧ (∀ v : JValue, v.objGet "customModels" = none →
        removeDroidCustomModel nm v = (v, false)) := by
  have hexists : (models.filter
        (fun m => ¬ entryName m = some nm)).length < models.length ↔
      ∃ m ∈ models, entryName m = some nm := by
    rw [List.length_filter_lt_length_iff_exists]
    simp
  have hr : removeDroidCustomModel nm (.obj fields) =
      (if (models.filter (fun m => ¬ entryName m = some nm)).length <
          models.length then
        ((JValue.obj (setKey fields "customModels"
          (.arr (models.filter (fun m => ¬ entryName m = some nm))))), true)
      else (.obj fields, false)) := by
    simp only [removeDroidCustomModel, hm]
  by_cases hlt : (models.filter
      (fun m => ¬ entryName m = some nm)).length < models.length
  · rw [hr, if_pos hlt]
    refine ⟨?_, ?_, ?_, ?_, ?_, ?_⟩
    · simp [droidModelsOf, JValue.objGet, getKey_setKey_same]
    · intro k hk
      simp [JValue.objGet, getKey_setKey_ne _ _ _ _ hk]
    · simpa using hexists.mp hlt
    · intro hall
      exfalso
      rw [List.filter_eq_self.mpr (by simpa using hall)] at hlt
      exact Nat.lt_irrefl _ hlt
    · rw [show removeDroidFile nm (some (.ok (.obj fields))) =
        .ok (if (removeDroidCustomModel nm (.obj fields)).2 then
          some (removeDroidCustomModel nm (.obj fields)).1 else none) from rfl]
      rw [hr, if_pos hlt]
    · intro v hv
      cases v with
      | obj f2 =>
          simp only [JValue.objGet] at hv
          simp [removeDroidCustomModel, hv]
      | null => rfl
      | bool b => rfl
      | num n => rfl
      | str s => rfl
      | arr xs => rfl
  · have heq : models.filter (fun m => ¬ entryName m = some nm) = models := by
      have hle := List.length_filter_le
        (fun m => ¬ entryName m = some nm) models
      have : (models.filter (fun m => ¬ entryName m = some nm)).length =
          models.length := Nat.le_antisymm hle (Nat.not_lt.mp hlt)
      exact List.Sublist.eq_of_length (List.filter_sublist models) this
    rw [hr, if_neg hlt]
    refine ⟨?_, ?_, ?_, ?_, ?_, ?_⟩
    · rw [heq]
      simp [droidModelsOf, JValue.objGet, hm]
    · intro k hk
      rfl
    · constructor
      · intro hc
        exact absurd hc (by simp)
      · intro hex
        exact absurd (hexists.mpr hex) hlt
    · intro _
      rfl
    · rw [show removeDroidFile nm (some (.ok (.obj fields))) =
        .ok (if (removeDroidCustomModel nm (.obj fields)).2 then
          some (removeDroidCustomModel nm (.obj fields)).1 else none) from rfl]
      rw [hr, if_neg hlt]
    · intro v hv
      cases v with
      | obj f2 =>
          simp only [JValue.objGet] at hv
          simp [removeDroidCustomModel, hv]
      | null => rfl
      | bool b => rfl
      | num n => rfl
      | str s => rfl
      | arr xs => rfl

/-- C5 witness: removing `beta` from the two-entry collection keeps exactly
the unrelated entry `alpha` unchanged. -/
theorem C5_remove_provider_witness :
    (getKey betaFields "customModels" =
      some (.arr [entryAlpha, entryBeta])) ∧
    droidModelsOf (removeDroidCustomModel "beta" (.obj betaFields)).1 =
      [entryAlpha, entryBeta].filter
        (fun m => ¬ entryName m = some "beta") :=
  ⟨by decide, (C5_remove_provider "beta" betaFields [entryAlpha, entryBeta]
    (by decide)).1⟩

/-! ## Cleanup operation -/

theorem notEmptyArr_cond (v : JValue) (hv : v ≠ .arr []) :
    ((v.asArr.map List.isEmpty).getD false) = false := by
  cases v with
  | arr xs =>
      cases xs with
      | nil => exact absurd rfl hv
      | cons a rest => rfl
  | null => rfl
  | bool b => rfl
  | num n => rfl
  | str s => rfl
  | obj f => rfl

theorem cleanupModelsStep_none (fields : List (String × JValue))
    (h : getKey fields "customModels" = none) :
    cleanupModelsStep fields = (fields, false) := by
  simp [cleanupModelsStep, h]

theorem cleanupModelsStep_empty (fields : List (String × JValue))
    (h : getKey fields "customModels" = some (.arr [])) :
    cleanupModelsStep fields = (removeKey fields "customModels", true) := by
  simp [cleanupModelsStep, h, JValue.asArr]

theorem cleanupModelsStep_keep (fields : List (String × JValue)) (v : JValue)
    (h : getKey fields "customModels" = some v) (hv : v ≠ .arr []) :
    cleanupModelsStep fields = (fields, false) := by
  simp [cleanupModelsStep, h, notEmptyArr_cond v hv]

theorem cleanupModelsStep_getKey_ne (fields : List (String × JValue))
    (k : String) (hk : k ≠ "customModels") :
    getKey (cleanupModelsStep fields).1 k = getKey fields k := by
  rcases hcm : getKey fields "customModels" with _ | v
  · rw [cleanupModelsStep_none fields hcm]
  · by_cases hv : v = .arr []
    · subst hv
      rw [cleanupModelsStep_empty fields hcm]
      exact getKey_removeKey_ne fields "customModels" k hk
    · rw [cleanupModelsStep_keep fields v hcm hv]

theorem cleanupSessionStep_obj_some (f : List (String × JValue))
    (sf : List (String × JValue))
    (hg : getKey f "sessionDefaultSettings" = some (.obj sf))
    (hm : (getKey sf "model").isSome = true) :
    cleanupSessionStep f =
      (setKey f "sessionDefaultSettings" (.obj (removeKey sf "model")),
        true) := by
  simp [cleanupSessionStep, hg, hm]

theorem cleanupSessionStep_obj_none (f : List (String × JValue))
    (sf : List (String × JValue))
    (hg : getKey f "sessionDefaultSettings" = some (.obj sf))
    (hm : getKey sf "model" = none) :
    cleanupSessionStep f = (f, false) := by
  simp [cleanupSessionStep, hg, hm]

theorem cleanupSessionStep_other (f : List (String × JValue)) (v : JValue)
    (hg : getKey f "sessionDefaultSettings" = some v)
    (hv : v.isObj = false) : cleanupSessionStep f = (f, false) := by
  cases v <;> simp_all [cleanupSessionStep, hg, JValue.isObj]

theorem cleanupSessionStep_none (f : List (String × JValue))
    (hg : getKey f "sessionDefaultSettings" = none) :
    cleanupSessionStep f = (f, false) := by
  simp [cleanupSessionStep, hg]

theorem cleanupSessionStep_getKey_ne (f : List (String × JValue)) (k : String)
    (hk : k ≠ "sessionDefaultSettings") :
    getKey (cleanupSessionStep f).1 k = getKey f k := by
  rcases hg : getKey f "sessionDefaultSettings" with _ | v
  · rw [cleanupSessionStep_none f hg]
  · cases v with
    | obj sf =>
        rcases hm : getKey sf "model" with _ | mv
        · rw [cleanupSessionStep_obj_none f sf hg hm]
        · rw [cleanupSessionStep_obj_some f sf hg (by rw [hm]; rfl)]
          exact getKey_setKey_ne f "sessionDefaultSettings" k _ hk
    | null => rw [cleanupSessionStep_other f _ hg rfl]
    | bool b => rw [cleanupSessionStep_other f _ hg rfl]
    | num n => rw [cleanupSessionStep_other f _ hg rfl]
    | str s => rw [cleanupSessionStep_other f _ hg rfl]
    | arr xs => rw [cleanupSessionStep_other f _ hg rfl]

/-- Well-formedness of the parsed `sessionDefaultSettings` object: JSON maps
have no duplicate keys. -/
def sessionKeysNodup (fields : List (String × JValue)) : Prop :=
  match getKey fields "sessionDefaultSettings" with
  | some (.obj sf) => (sf.map Prod.fst).Nodup
  | _ => True

instance (fields : List (String × JValue)) :
    Decidable (sessionKeysNodup fields) := by
  unfold sessionKeysNodup
  rcases getKey fields "sessionDefaultSettings" with _ | v
  · exact inferInstanceAs (Decidable True)
  · cases v <;> simp only <;> infer_instance

theorem sessionKeysNodup_elim (fields sf : List (String × JValue))
    (h : sessionKeysNodup fields)
    (hg : getKey fields "sessionDefaultSettings" = some (.obj sf)) :
    (sf.map Prod.fst).Nodup := by
  unfold sessionKeysNodup at h
  rw [hg] at h
  exact h

/-- C10: the cleanup operation removes `customModels` exactly when it is
present and an empty array, empties the `sessionDefaultSettings.model`
selection pointer, preserves every other top-level field and every other
session field, is a no-op on an absent file, and is idempotent.  The
hypotheses state that the parsed document has no duplicate keys, which every
`serde_json`-parsed document satisfies. -/
theorem C10_cleanup_idempotent (fields : List (String × JValue))
    (hnd : (fields.map Prod.fst).Nodup) (hsn : sessionKeysNodup fields) :
    (getKey fields "customModels" = some (.arr []) →
      (cleanupSettings (.obj fields)).1.objGet "customModels" = none)
    ∧ (¬ getKey fields "customModels" = some (.arr []) →
      (cleanupSettings (.obj fields)).1.objGet "customModels" =
        getKey fields "customModels")
    ∧ (((cleanupSettings (.obj fields)).1.objGet
        "sessionDefaultSettings").bind (fun v => v.objGet "model") = none)
    ∧ (∀ k, k ≠ "model" →
        (((cleanupSettings (.obj fields)).1.objGet
          "sessionDefaultSettings").bind (fun v => v.objGet k)) =
        ((getKey fields "sessionDefaultSettings").bind (fun v => v.objGet k)))
    ∧ (∀ k, k ≠ "customModels" → k ≠ "sessionDefaultSettings" →
        (cleanupSettings (.obj fields)).1.objGet k = getKey fields k)
    ∧ cleanupFile none = .ok none
    ∧ cleanupSettings (cleanupSettings (.obj fields)).1 =
        ((cleanupSettings (.obj fields)).1, false) := by
  have hmain : cleanupSettings (.obj fields) =
      (.obj (cleanupSessionStep (cleanupModelsStep fields).1).1,
        (cleanupModelsStep fields).2 ||
          (cleanupSessionStep (cleanupModelsStep fields).1).2) := rfl
  have hsd1 : getKey (cleanupModelsStep fields).1 "sessionDefaultSettings" =
      getKey fields "sessionDefaultSettings" :=
    cleanupModelsStep_getKey_ne fields _ (by decide)
  have hcm2 : getKey (cleanupSessionStep (cleanupModelsStep fields).1).1
      "customModels" = getKey (cleanupModelsStep fields).1 "customModels" :=
    cleanupSessionStep_getKey_ne _ _ (by decide)
  -- the customModels lookup after both steps
  have hcmOut : getKey (cleanupSessionStep (cleanupModelsStep fields).1).1
      "customModels" =
      (if getKey fields "customModels" = some (.arr []) then none
       else getKey fields "customModels") := by
    rw [hcm2]
    rcases hcm : getKey fields "customModels" with _ | v
    · rw [cleanupModelsStep_none fields hcm, hcm]
      simp
    · by_cases hv : v = .arr []
      · subst hv
        rw [cleanupModelsStep_empty fields hcm, if_pos rfl]
        exact getKey_removeKey_same fields "customModels" hnd
      · rw [cleanupModelsStep_keep fields v hcm hv, hcm, if_neg]
        intro hc
        exact hv (by injection hc)
  -- the sessionDefaultSettings lookup after both steps
  have hsdOut : getKey (cleanupSessionStep (cleanupModelsStep fields).1).1
      "sessionDefaultSettings" =
      (match getKey fields "sessionDefaultSettings" with
       | some (.obj sf) =>
          if (getKey sf "model").isSome then
            some (.obj (removeKey sf "model"))
          else some (.obj sf)
       | other => other) := by
    rcases hsd : getKey fields "sessionDefaultSettings" with _ | v
    · rw [cleanupSessionStep_none _ (hsd1.trans hsd), hsd1, hsd]
    · cases v with
      | obj sf =>
          rcases hm : getKey sf "model" with _ | mv
          · rw [cleanupSessionStep_obj_none _ sf (hsd1.trans hsd) hm, hsd1,
              hsd]
            simp [hm]
          · rw [cleanupSessionStep_obj_some _ sf (hsd1.trans hsd)
              (by rw [hm]; rfl)]
            rw [getKey_setKey_same]
            simp [hm]
      | null => rw [cleanupSessionStep_other _ _ (hsd1.trans hsd) rfl, hsd1, hsd]
      | bool b => rw [cleanupSessionStep_other _ _ (hsd1.trans hsd) rfl, hsd1, hsd]
      | num n => rw [cleanupSessionStep_other _ _ (hsd1.trans hsd) rfl, hsd1, hsd]
      | str s => rw [cleanupSessionStep_other _ _ (hsd1.trans hsd) rfl, hsd1, hsd]
      | arr xs => rw [cleanupSessionStep_other _ _ (hsd1.trans hsd) rfl, hsd1, hsd]
  refine ⟨?_, ?_, ?_, ?_, ?_, rfl, ?_⟩
  · intro hcm
    rw [hmain]
    show getKey (cleanupSessionStep (cleanupModelsStep fields).1).1
      "customModels" = none
    rw [hcmOut, if_pos hcm]
  · intro hcm
    rw [hmain]
    show getKey (cleanupSessionStep (cleanupModelsStep fields).1).1
      "customModels" = getKey fields "customModels"
    rw [hcmOut, if_neg hcm]
  · rw [hmain]
    show (getKey (cleanupSessionStep (cleanupModelsStep fields).1).1
      "sessionDefaultSettings").bind (fun v => v.objGet "model") = none
    rw [hsdOut]
    rcases hsd : getKey fields "sessionDefaultSettings" with _ | v
    · rfl
    · cases v with
      | obj sf =>
          rcases hm : getKey sf "model" with _ | mv
          · simp [hm, JValue.objGet]
          · simp only [hm, Option.isSome_some, if_pos, Option.some_bind]
            show getKey (removeKey sf "model") "model" = none
            exact getKey_removeKey_same sf "model"
              (sessionKeysNodup_elim fields sf hsn hsd)
      | null => rfl
      | bool b => rfl
      | num n => rfl
      | str s => rfl
      | arr xs => rfl
  · intro k hk
    rw [hmain]
    show (getKey (cleanupSessionStep (cleanupModelsStep fields).1).1
      "sessionDefaultSettings").bind (fun v => v.objGet k) =
      (getKey fields "sessionDefaultSettings").bind (fun v => v.objGet k)
    rw [hsdOut]
    rcases hsd : getKey fields "sessionDefaultSettings" with _ | v
    · rfl
    · cases v with
      | obj sf =>
          rcases hm : getKey sf "model" with _ | mv
          · simp [hm]
          · simp only [hm, Option.isSome_some, if_pos, Option.some_bind]
            show getKey (removeKey sf "model") k = getKey sf k
            exact getKey_removeKey_ne sf "model" k hk
      | null => rfl
      | bool b => rfl
      | num n => rfl
      | str s => rfl
      | arr xs => rfl
  · intro k hk1 hk2
    rw [hmain]
    show getKey (cleanupSessionStep (cleanupModelsStep fields).1).1 k =
      getKey fields k
    rw [cleanupSessionStep_getKey_ne _ _ hk2,
      cleanupModelsStep_getKey_ne _ _ hk1]
  · rw [hmain]
    have hstep1 : cleanupModelsStep
        (cleanupSessionStep (cleanupModelsStep fields).1).1 =
        ((cleanupSessionStep (cleanupModelsStep fields).1).1, false) := by
      rcases hcm : getKey fields "customModels" with _ | v
      · exact cleanupModelsStep_none _ (by rw [hcmOut, if_neg (by simp [hcm]), hcm])
      · by_cases hv : v = .arr []
        · subst hv
          exact cleanupModelsStep_none _ (by rw [hcmOut, if_pos hcm])
        · refine cleanupModelsStep_keep _ v ?_ hv
          rw [hcmOut, if_neg, hcm]
          intro hc
          rw [hcm] at hc
          exact hv (by injection hc)
    have hstep2 : cleanupSessionStep
        (cleanupSessionStep (cleanupModelsStep fields).1).1 =
        ((cleanupSessionStep (cleanupModelsStep fields).1).1, false) := by
      rcases hsd : getKey fields "sessionDefaultSettings" with _ | v
      · exact cleanupSessionStep_none _ (by rw [hsdOut, hsd])
      · cases v with
        | obj sf =>
            rcases hm : getKey sf "model" with _ | mv
            · refine cleanupSessionStep_obj_none _ sf ?_ hm
              rw [hsdOut, hsd]
              simp [hm]
            · refine cleanupSessionStep_obj_none _ (removeKey sf "model") ?_ ?_
              · rw [hsdOut, hsd]
                simp [hm]
              · exact getKey_removeKey_same sf "model"
                  (sessionKeysNodup_elim fields sf hsn hsd)
        | null =>
            exact cleanupSessionStep_other _ JValue.null
              (by rw [hsdOut, hsd]) rfl
        | bool b =>
            exact cleanupSessionStep_other _ (JValue.bool b)
              (by rw [hsdOut, hsd]) rfl
        | num n =>
            exact cleanupSessionStep_other _ (JValue.num n)
              (by rw [hsdOut, hsd]) rfl
        | str s =>
            exact cleanupSessionStep_other _ (JValue.str s)
              (by rw [hsdOut, hsd]) rfl
        | arr xs =>
            exact cleanupSessionStep_other _ (JValue.arr xs)
              (by rw [hsdOut, hsd]) rfl
    show cleanupSettings (.obj (cleanupSessionStep (cleanupModelsStep fields).1).1) = _
    have : cleanupSettings
        (.obj (cleanupSessionStep (cleanupModelsStep fields).1).1) =
        (.obj (cleanupSessionStep (cleanupModelsStep
          (cleanupSessionStep (cleanupModelsStep fields).1).1).1).1,
         (cleanupModelsStep
            (cleanupSessionStep (cleanupModelsStep fields).1).1).2 ||
          (cleanupSessionStep (cleanupModelsStep
            (cleanupSessionStep (cleanupModelsStep fields).1).1).1).2) := rfl
    rw [this, hstep1, hstep2]
    simp

/-! ## C10 witness input -/

/-- A settings document with an empty `customModels`, a selection pointer and
unrelated fields. -/
def cleanupFieldsW : List (String × JValue) :=
  [("customModels", .arr []),
   ("sessionDefaultSettings",
     .obj [("model", .str "custom:acme-0"), ("temperature", .num 1)]),
   ("other", .bool true)]

/-- C10 witness: concrete cleanup run removing the empty `customModels` and
the stale pointer; a second run changes nothing. -/
theorem C10_cleanup_idempotent_witness :
    ((cleanupFieldsW.map Prod.fst).Nodup ∧ sessionKeysNodup cleanupFieldsW) ∧
    ((cleanupSettings (.obj cleanupFieldsW)).1.objGet "customModels" = none ∧
     cleanupSettings (cleanupSettings (.obj cleanupFieldsW)).1 =
       ((cleanupSettings (.obj cleanupFieldsW)).1, false)) :=
  ⟨⟨by decide, by decide⟩,
   ⟨(C10_cleanup_idempotent cleanupFieldsW (by decide) (by decide)).1
      (by decide),
    (C10_cleanup_idempotent cleanupFieldsW (by decide)
      (by decide)).2.2.2.2.2.2⟩⟩

/-! ## Sync orchestration (C9) -/

/-- C9 (amended): the sync loop iterates exactly the three app types Claude,
Codex and Gemini — Droid is never synced.  For each iterated app type: when no
effective current provider exists it is skipped (no write), otherwise the
provider record resolved from the store is written to the live configuration of that app type.  Membership in the performed-write list characterizes this. -/
theorem C9_sync_iteration (eff : AppType → Option String)
    (prov : AppType → String → Option Provider) (t : AppType) (p : Provider) :
    (t, p) ∈ syncCurrentToLive eff prov ↔
      (t ≠ AppType.droid ∧ ∃ pid, eff t = some pid ∧ prov t pid = some p) := by
  unfold syncCurrentToLive syncAppTypes
  rw [List.mem_filterMap]
  constructor
  · rintro ⟨a, ha, hfa⟩
    rcases heff : eff a with _ | pid
    · simp only [heff] at hfa
      exact absurd hfa (by simp)
    · simp only [heff] at hfa
      rcases hp : prov a pid with _ | q
      · simp only [hp, Option.map_none] at hfa
        exact absurd hfa (by simp)
      · simp only [hp, Option.map_some, Option.some.injEq,
          Prod.mk.injEq] at hfa
        obtain ⟨rfl, rfl⟩ := hfa
        refine ⟨?_, pid, heff, hp⟩
        simp only [List.mem_cons, List.not_mem_nil, or_false] at ha
        rcases ha with rfl | rfl | rfl <;> simp
  · rintro ⟨hne, pid, heff, hp⟩
    refine ⟨t, ?_, ?_⟩
    · cases t with
      | claude => simp
      | codex => simp
      | gemini => simp
      | droid => exact absurd rfl hne
    · simp [heff, hp]

/-- Store assignment under which only Droid has an effective current
provider. -/
def droidOnlyEff : AppType → Option String :=
  fun t => match t with
  | .droid => some "p1"
  | _ => none

/-- Provider store holding the record for the current Droid provider. -/
def droidOnlyProv : AppType → String → Option Provider :=
  fun t _ => match t with
  | .droid => some acmeProvider
  | _ => none

/-- C9 counterexample: Droid has an effective current provider whose record
exists, yet the sync performs no write at all — contradicting the claim that
the sync iterates all four app types and writes the Droid provider. -/
theorem C9_sync_counterexample :
    droidOnlyEff AppType.droid = some "p1" ∧
    droidOnlyProv AppType.droid "p1" = some acmeProvider ∧
    syncCurrentToLive droidOnlyEff droidOnlyProv = [] :=
  ⟨rfl, rfl, rfl⟩

/-! ## Reading live settings with absent primary files (C7) -/

/-- C7 (amended): for Claude, Codex and Gemini, reading the live settings
when the primary live file is absent fails with the dedicated localized
"not configured" error; for Droid, an absent `config.json` is NOT an error —
`read_droid_config` returns the empty object. -/
theorem C7_missing_live_file (fs : LiveFiles) :
    (fs.claudeSettings = none →
      readLiveSettings AppType.claude fs = .error (.localized
        "claude.live.missing" "Claude Code 配置文件不存在"
        "Claude settings file is missing"))
    ∧ (fs.codexAuth = none →
      readLiveSettings AppType.codex fs = .error (.localized
        "codex.auth.missing" "Codex 配置文件不存在：缺少 auth.json"
        "Codex configuration missing: auth.json not found"))
    ∧ (fs.geminiEnv = none →
      readLiveSettings AppType.gemini fs = .error (.localized
        "gemini.env.missing" "Gemini .env 文件不存在"
        "Gemini .env file not found"))
    ∧ (fs.droidConfig = none →
      readLiveSettings AppType.droid fs = .ok (.obj [])) := by
  refine ⟨?_, ?_, ?_, ?_⟩ <;> intro h <;>
    simp [readLiveSettings, h, readDroidConfig]

/-- File state with every live file absent. -/
def emptyFS : LiveFiles := ⟨none, none, none, none, none, none⟩

/-- C7 counterexample: for the Droid app type, reading the live settings with
the primary live file absent returns a success value (the empty object)
instead of the "not configured" error the claim requires for every app
type. -/
theorem C7_missing_live_file_counterexample :
    readLiveSettings AppType.droid emptyFS = .ok (.obj []) := rfl

/-- C7 witness: concrete absent-file reads for the three erroring app
types. -/
theorem C7_missing_live_file_witness :
    (emptyFS.claudeSettings = none ∧ emptyFS.codexAuth = none ∧
      emptyFS.geminiEnv = none) ∧
    readLiveSettings AppType.claude emptyFS = .error (.localized
      "claude.live.missing" "Claude Code 配置文件不存在"
      "Claude settings file is missing") ∧
    readLiveSettings AppType.codex emptyFS = .error (.localized
      "codex.auth.missing" "Codex 配置文件不存在：缺少 auth.json"
      "Codex configuration missing: auth.json not found") ∧
    readLiveSettings AppType.gemini emptyFS = .error (.localized
      "gemini.env.missing" "Gemini .env 文件不存在"
      "Gemini .env file not found") :=
  ⟨⟨rfl, rfl, rfl⟩,
   (C7_missing_live_file emptyFS).1 rfl,
   (C7_missing_live_file emptyFS).2.1 rfl,
   (C7_missing_live_file emptyFS).2.2.1 rfl⟩

/-! ## Malformed settings.json on the Droid write path (C8) -/

/-- C8 (amended): when the existing `settings.json` is malformed, the write
does NOT fail: `read_droid_settings()` errors but
`unwrap_or_else(|_| json!({}))` swallows the error, so the write proceeds
exactly as if the file were absent, starting from the empty document and
replacing the prior content. -/
theorem C8_parse_error_swallowed (p : Provider) :
    droidWriteFile p (some (.error ())) = droidWriteFile p none ∧
    droidWriteFile p (some (.error ())) = droidWrite p (.obj []) :=
  ⟨rfl, rfl⟩

/-- C8 counterexample: with a malformed settings file on disk, the write of
the `acme` provider succeeds (producing a fresh document) instead of failing
with a parse error as the claim requires. -/
theorem C8_parse_error_counterexample :
    droidWriteFile acmeProvider (some (.error ())) = .ok acmeDoc := rfl

/-! ## Gemini settings-document merge (C6) -/

theorem objGet_objSet_ne (d : JValue) (k0 k : String) (x : JValue)
    (hk : k ≠ k0) : (objSet d k0 x).objGet k = d.objGet k := by
  cases d with
  | obj f => exact getKey_setKey_ne f k0 k x hk
  | null => rfl
  | bool b => rfl
  | num n => rfl
  | str s => rfl
  | arr xs => rfl

/-- Lookup after the shallow merge: keys of the overlay win, all other keys
read from the base.  The overlay is a parsed JSON object, so its keys are
distinct. -/
theorem shallowMerge_objGet (E cf : List (String × JValue))
    (hnd : (cf.map Prod.fst).Nodup) (k : String) :
    (shallowMerge (.obj E) (.obj cf)).objGet k =
      ((getKey cf k).elim (getKey E k) some) := by
  show getKey (cf.foldl (fun acc kv => setKey acc kv.1 kv.2) E) k = _
  induction cf generalizing E with
  | nil => simp [getKey]
  | cons hd rest ih =>
      obtain ⟨k0, v0⟩ := hd
      simp only [List.map_cons, List.nodup_cons] at hnd
      simp only [List.foldl_cons]
      rw [ih (setKey E k0 v0) hnd.2]
      by_cases h0 : k0 = k
      · subst h0
        have hrest : getKey rest k0 = none :=
          getKey_eq_none_of_not_mem rest k0 (by
            intro hc
            exact hnd.1 (by simpa using hc))
        simp [getKey, hrest, getKey_setKey_same]
      · simp [getKey, h0, getKey_setKey_ne E k0 k v0 (Ne.symm h0)]

/-- C6: for the env+settings (Gemini) format, abstracted over the
`gemini_config`/`gemini_auth` collaborators (constrained only by their
spec-level interface: the security-flag update touches only the `security`
field, env extraction and strict validation succeed on this provider):
(1) a `config` object is shallow-merged into the existing settings document —
overlay keys overwrite, every other existing key is preserved;
(2) a `config` that is `null` or absent rewrites the existing document
verbatim, so the final document agrees with the existing one on every field
except the subsystem-owned `security` field;
(3) a non-null, non-object `config` fails the write with the dedicated
validation error. -/
theorem C6_gemini_config_merge (c : GeminiCollab) (p : Provider)
    (E : List (String × JValue)) (envMap : List (String × String))
    (hsec : ∀ a d k, k ≠ "security" →
      (c.setSecurityFlag a d).objGet k = d.objGet k)
    (henv : c.jsonToEnv p.settingsConfig = .ok envMap)
    (hval : c.validateStrict p.settingsConfig = .ok ()) :
    (∀ cf, p.settingsConfig.objGet "config" = some (.obj cf) →
      (cf.map Prod.fst).Nodup →
      ∃ out, writeGeminiLive c p (some (.ok (.obj E))) = .ok out ∧
        out.settingsWritten = some (shallowMerge (.obj E) (.obj cf)) ∧
        (∀ k, (shallowMerge (.obj E) (.obj cf)).objGet k =
          ((getKey cf k).elim (getKey E k) some)))
    ∧ ((p.settingsConfig.objGet "config" = none ∨
        p.settingsConfig.objGet "config" = some .null) →
      ∃ out, writeGeminiLive c p (some (.ok (.obj E))) = .ok out ∧
        out.settingsWritten = some (.obj E) ∧
        (∀ k, k ≠ "security" →
          out.finalSettings.objGet k = getKey E k))
    ∧ (∀ cfg, p.settingsConfig.objGet "config" = some cfg →
        cfg.isObj = false → cfg ≠ .null →
        writeGeminiLive c p (some (.ok (.obj E))) = .error (.localized
          "gemini.validation.invalid_config"
          "Gemini 配置格式错误: config 必须是对象或 null"
          "Gemini config invalid: config must be an object or null")) := by
  refine ⟨?_, ?_, ?_⟩
  · intro cf hcfg hnd
    have hrun : writeGeminiLive c p (some (.ok (.obj E))) =
        .ok { envWritten := (match c.authType p with
                | .googleOfficial => []
                | .packycode => envMap
                | .generic => envMap),
              settingsWritten := some (shallowMerge (.obj E) (.obj cf)),
              finalSettings := c.setSecurityFlag (c.authType p)
                (shallowMerge (.obj E) (.obj cf)) } := by
      rcases hat : c.authType p with _ | _ | _ <;>
        simp [writeGeminiLive, henv, hcfg, hval, hat, JValue.isObj]
    exact ⟨_, hrun, rfl, shallowMerge_objGet E cf hnd⟩
  · intro hcfg
    have hrun : writeGeminiLive c p (some (.ok (.obj E))) =
        .ok { envWritten := (match c.authType p with
                | .googleOfficial => []
                | .packycode => envMap
                | .generic => envMap),
              settingsWritten := some (.obj E),
              finalSettings := c.setSecurityFlag (c.authType p) (.obj E) } := by
      rcases hcfg with hcfg | hcfg <;>
        rcases hat : c.authType p with _ | _ | _ <;>
        simp [writeGeminiLive, henv, hcfg, hval, hat, JValue.isObj]
    refine ⟨_, hrun, rfl, ?_⟩
    intro k hk
    show (c.setSecurityFlag (c.authType p) (.obj E)).objGet k =
      getKey E k
    rw [hsec (c.authType p) (.obj E) k hk]
    rfl
  · intro cfg hcfg hno hnn
    cases cfg with
    | obj f => simp [JValue.isObj] at hno
    | null => exact absurd rfl hnn
    | bool b => simp [writeGeminiLive, henv, hcfg, JValue.isObj]
    | num n => simp [writeGeminiLive, henv, hcfg, JValue.isObj]
    | str s => simp [writeGeminiLive, henv, hcfg, JValue.isObj]
    | arr xs => simp [writeGeminiLive, henv, hcfg, JValue.isObj]

/-- Concrete Gemini collaborators for the witness: generic API-key auth,
fixed env extraction, always-passing strict validation, and a security-flag
update writing the `security` field. -/
def geminiCollabW : GeminiCollab :=
  { authType := fun _ => .generic,
    jsonToEnv := fun _ => .ok [("GOOGLE_GEMINI_BASE_URL", "https://x")],
    validateStrict := fun _ => .ok (),
    setSecurityFlag := fun _ d => objSet d "security" (.str "apiKey") }

/-- Gemini provider whose `config` object re-themes the settings. -/
def geminiProviderW : Provider :=
  ⟨"g1", "gem", .obj [
    ("env", .obj [("GOOGLE_GEMINI_BASE_URL", .str "https://x")]),
    ("config", .obj [("theme", .str "light")])]⟩

/-- Existing `settings.json` content with an MCP server map the merge must
preserve. -/
def gemExistingW : List (String × JValue) :=
  [("mcpServers", .obj [("srv", .obj [])]), ("theme", .str "dark")]

/-- Outcome of the witness run. -/
def gemOutW : GeminiOutcome :=
  { envWritten := [("GOOGLE_GEMINI_BASE_URL", "https://x")],
    settingsWritten := some (.obj [("mcpServers", .obj [("srv", .obj [])]),
      ("theme", .str "light")]),
    finalSettings := .obj [("mcpServers", .obj [("srv", .obj [])]),
      ("theme", .str "light"), ("security", .str "apiKey")] }

/-- C6 witness: the concrete merge run overwrites `theme`, preserves
`mcpServers`, and only the owned `security` field is added on top. -/
theorem C6_gemini_config_merge_witness :
    geminiCollabW.jsonToEnv geminiProviderW.settingsConfig =
      .ok [("GOOGLE_GEMINI_BASE_URL", "https://x")] ∧
    geminiCollabW.validateStrict geminiProviderW.settingsConfig = .ok () ∧
    writeGeminiLive geminiCollabW geminiProviderW
      (some (.ok (.obj gemExistingW))) = .ok gemOutW ∧
    gemOutW.settingsWritten =
      some (shallowMerge (.obj gemExistingW)
        (.obj [("theme", JValue.str "light")])) :=
  ⟨rfl, rfl, rfl, by
    obtain ⟨out, hrun, hw, _⟩ :=
      (C6_gemini_config_merge geminiCollabW geminiProviderW gemExistingW
        [("GOOGLE_GEMINI_BASE_URL", "https://x")]
        (fun a d k hk => objGet_objSet_ne d "security" k _ hk)
        rfl rfl).1 [("theme", JValue.str "light")] rfl (by decide)
    have h2 : (Except.ok out : Except AppError GeminiOutcome) =
        .ok gemOutW := hrun.symm.trans (by rfl)
    have h3 : out = gemOutW := by injection h2
    exact h3 ▸ hw⟩
